import Mathlib

/-! Variable transformations of `spii/constraints.h`.

A shallow embedding of the three constraint transformations of
`include/spii/constraints.h` (`GreaterThanZero`, `Interval`, `Box`) together
with the properties of them that are checked here.

Modelling conventions:

* The member templates are generic in the scalar type `R`; so are the
  definitions below, which ask of `R` only the operations the source applies
  to it.  The functions found by argument-dependent lookup (`atan`, `tan`,
  `sqrt`) are explicit arguments.
* Two scalar types are used.  `Double` is a model of C++ `double` (IEEE 754
  binary64, round to nearest, ties to even): statements about what the
  compiled program computes are made over it.  The reals are used where a
  statement reads the formulas in exact arithmetic, with a decimal literal
  denoting its written value, and `atan`, `tan`, `sqrt` instantiated by
  `Real.arctan`, `Real.tan`, `Real.sqrt`.
* The `double` members and constructor arguments of `Interval` and `Box` are
  values of the scalar type as well.
* A pointer argument (`R* x`, `const R* t`, `const double*`) is a buffer
  `Nat → R`; a member function that writes through its first argument
  returns the buffer after the call.
* `int` is `Int`; `size_t` is an unsigned 64-bit integer, so the comparison
  `i < dimension` of a `size_t` counter with an `int` converts the `int`
  modulo `2 ^ 64`.
* `throw std::runtime_error(msg)` is `Except.error msg`.
-/

namespace spii

/-! ## Integer conversions -/

/-- The number of values of a `size_t` (64-bit). -/
def SIZE_T_RANGE : Nat := 2 ^ 64

/-- Conversion of an `int` to `size_t`, as done by the usual arithmetic
conversions when a `size_t` is compared with an `int`. -/
def int_to_size_t (d : Int) : Nat := (d % (SIZE_T_RANGE : Int)).toNat

/-! ## The scalar type `double` -/

/-- A value of C++ `double` (IEEE 754 binary64): not-a-number, an infinity
with its sign, or a finite value given by the rational number it denotes.
The two zeros are identified (they compare equal, and the header never
divides by a zero whose sign could matter: a divisor is `b - a` with
`a < b`).  A binary64 value is a `fin q` with `q` representable; every
operation below returns such a value. -/
inductive Double where
  /-- Not a number. -/
  | nan : Double
  /-- Infinity; `neg` is the sign bit. -/
  | inf (neg : Bool) : Double
  /-- A finite value. -/
  | fin (q : ℚ) : Double
deriving DecidableEq

namespace Double

/-- Nearest integer, ties to the even one. -/
def rne (s : ℚ) : Int :=
  if s - ⌊s⌋ < 1 / 2 then ⌊s⌋
  else if 1 / 2 < s - ⌊s⌋ then ⌊s⌋ + 1
  else if ⌊s⌋ % 2 = 0 then ⌊s⌋
  else ⌊s⌋ + 1

/-- Exponent of the unit in the last place for a positive `q`: 53 significant
bits, and never below the subnormal spacing `2 ^ (-1074)`. -/
def ulpExp (q : ℚ) : Int := max (Int.log 2 q - 52) (-1074)

/-- The positive `q` rounded to the nearest multiple of its unit in the last
place, ties to even (no bound on the exponent yet). -/
def roundMag (q : ℚ) : ℚ := (rne (q / (2 : ℚ) ^ ulpExp q) : ℚ) * (2 : ℚ) ^ ulpExp q

/-- Rounding of an exact result to binary64, to nearest and ties to even: a
magnitude that rounds to `2 ^ 1024` or more overflows to infinity, one
below half the smallest subnormal underflows to zero. -/
def round (q : ℚ) : Double :=
  if q = 0 then fin 0
  else if (2 : ℚ) ^ (1024 : Int) ≤ roundMag |q| then inf (decide (q < 0))
  else fin (if q < 0 then -roundMag |q| else roundMag |q|)

/-- Unary minus. -/
def neg : Double → Double
  | nan => nan
  | inf s => inf (!s)
  | fin q => fin (-q)

/-- Addition. -/
def add : Double → Double → Double
  | fin p, fin q => round (p + q)
  | fin _, inf s => inf s
  | inf s, fin _ => inf s
  | inf s, inf r => if s = r then inf s else nan
  | _, _ => nan

/-- Multiplication. -/
def mul : Double → Double → Double
  | fin p, fin q => round (p * q)
  | fin p, inf s => if p = 0 then nan else inf (xor s (decide (p < 0)))
  | inf s, fin q => if q = 0 then nan else inf (xor s (decide (q < 0)))
  | inf s, inf r => inf (xor s r)
  | _, _ => nan

/-- Division (the zero divisor is `+0`). -/
def div : Double → Double → Double
  | fin p, fin q =>
    if q = 0 then (if p = 0 then nan else inf (decide (p < 0))) else round (p / q)
  | fin _, inf _ => fin 0
  | inf s, fin q => inf (xor s (decide (q < 0)))
  | _, _ => nan

/-- The comparison `x <= y`: false as soon as an operand is not a number. -/
def ble : Double → Double → Bool
  | fin p, fin q => decide (p ≤ q)
  | fin _, inf s => !s
  | inf s, fin _ => s
  | inf s, inf r => s || !r
  | _, _ => false

/-- The comparison `x < y`: false as soon as an operand is not a number. -/
def blt : Double → Double → Bool
  | fin p, fin q => decide (p < q)
  | fin _, inf s => !s
  | inf s, fin _ => s
  | inf s, inf r => s && !r
  | _, _ => false

/-- The positive `q` under the correctly rounded square root: with
`2 ^ k <= sqrt q < 2 ^ (k + 1)` the result is the multiple of `2 ^ (k - 52)`
nearest to `sqrt q`, found from the integer square root of `q / 4 ^ (k - 52)`. -/
def sqrtMag (q : ℚ) : ℚ :=
  let p : Int := Int.log 2 q / 2 - 52
  let s : ℚ := q / (4 : ℚ) ^ p
  let n : Nat := Nat.sqrt ⌊s⌋.toNat
  let m : Nat :=
    if s < ((n : ℚ) + 1 / 2) ^ 2 then n
    else if ((n : ℚ) + 1 / 2) ^ 2 < s then n + 1
    else if n % 2 = 0 then n
    else n + 1
  (m : ℚ) * (2 : ℚ) ^ p

/-- The function `sqrt` on `double` (correctly rounded, as IEEE 754 requires). -/
def sqrt : Double → Double
  | nan => nan
  | inf s => if s then nan else inf false
  | fin q => if q < 0 then nan else if q = 0 then fin 0 else fin (sqrtMag q)

instance : Neg Double := ⟨neg⟩
instance : Add Double := ⟨add⟩
instance : Sub Double := ⟨fun x y => add x (neg y)⟩
instance : Mul Double := ⟨mul⟩
instance : Div Double := ⟨div⟩
instance : LE Double := ⟨fun x y => ble x y = true⟩
instance : LT Double := ⟨fun x y => blt x y = true⟩
instance : DecidableRel (fun x y : Double => x ≤ y) :=
  fun x y => inferInstanceAs (Decidable (ble x y = true))
instance : DecidableRel (fun x y : Double => x < y) :=
  fun x y => inferInstanceAs (Decidable (blt x y = true))

/-- An integer literal denotes the binary64 nearest to it. -/
instance (n : Nat) : OfNat Double n := ⟨round n⟩

/-- A decimal literal denotes the binary64 nearest to its written value. -/
instance : OfScientific Double :=
  ⟨fun m s e => round (OfScientific.ofScientific m s e : ℚ)⟩

end Double

/-! ## `class GreaterThanZero` -/

/-- Data members of `class GreaterThanZero`. -/
structure GreaterThanZero where
  /-- Member `int dimension`. -/
  dimension : Int
deriving DecidableEq, Repr

namespace GreaterThanZero

/-- Constructor `GreaterThanZero(int dimension)`: stores its argument. -/
def construct (dimension : Int) : GreaterThanZero :=
  { dimension := dimension }

/-- Buffer `x` after the first `n` iterations of
`for (size_t i = 0; i < dimension; ++i) { x[i] = t[i] * t[i]; }`. -/
def t_to_x_loop {R : Type} [Mul R] (t : Nat → R) (x : Nat → R) : Nat → (Nat → R)
  | 0 => x
  | n + 1 => Function.update (t_to_x_loop t x n) n (t n * t n)

/-- Member `t_to_x(R* x, const R* t)`. -/
def t_to_x {R : Type} [Mul R] (self : GreaterThanZero) (x t : Nat → R) : Nat → R :=
  t_to_x_loop t x (int_to_size_t self.dimension)

/-- Buffer `t` after the first `n` iterations of
`for (size_t i = 0; i < dimension; ++i) { t[i] = sqrt(x[i]); }`. -/
def x_to_t_loop {R : Type} (sqrt : R → R) (x : Nat → R) (t : Nat → R) : Nat → (Nat → R)
  | 0 => t
  | n + 1 => Function.update (x_to_t_loop sqrt x t n) n (sqrt (x n))

/-- Member `x_to_t(R* t, const R* x)`. -/
def x_to_t {R : Type} (sqrt : R → R) (self : GreaterThanZero) (t x : Nat → R) : Nat → R :=
  x_to_t_loop sqrt x t (int_to_size_t self.dimension)

/-- Member `x_dimension()`. -/
def x_dimension (self : GreaterThanZero) : Int := self.dimension

/-- Member `t_dimension()`. -/
def t_dimension (self : GreaterThanZero) : Int := self.dimension

end GreaterThanZero

/-! ## `class Interval` -/

/-- Data members of `class Interval`. -/
structure Interval (R : Type) where
  /-- Member `a`, the lower end. -/
  a : R
  /-- Member `b`, the upper end. -/
  b : R

namespace Interval

variable {R : Type}

/-- Constructor `Interval(double a, double b)`. -/
def construct [LE R] [DecidableRel (fun u v : R => u ≤ v)] (a b : R) :
    Except String (Interval R) :=
  if b ≤ a then
    Except.error "Interval: non-positive size"
  else
    Except.ok { a := a, b := b }

/-- Member `t_to_x(R* x, const R* t)`. -/
def t_to_x [Add R] [Sub R] [Mul R] [OfScientific R] (atan : R → R) (self : Interval R)
    (x t : Nat → R) : Nat → R :=
  Function.update x 0
    (self.a + (self.b - self.a) * (0.318309886183791 * atan (t 0) + 0.5))

/-- Member `x_to_t(R* t, const R* x)`. -/
def x_to_t [Sub R] [Mul R] [Div R] [OfScientific R] (tan : R → R) (self : Interval R)
    (t x : Nat → R) : Nat → R :=
  Function.update t 0
    (tan (((x 0 - self.a) / (self.b - self.a) - 0.5) * 3.141592653589793))

/-- Member `x_dimension()`. -/
def x_dimension (_self : Interval R) : Int := 1

/-- Member `t_dimension()`. -/
def t_dimension (_self : Interval R) : Int := 1

end Interval

/-! ## `class Box` -/

/-- Data members of `class Box`. -/
structure Box (R : Type) where
  /-- Member `int dimension`. -/
  dimension : Int
  /-- Member `const double* a`, the lower bounds. -/
  a : Nat → R
  /-- Member `const double* b`, the upper bounds. -/
  b : Nat → R

namespace Box

variable {R : Type}

/-- The validation loop of the constructor,
`for (int i = 0; i < dimension; ++i) if (upper[i] <= lower[i]) throw ...`,
started at index `i` with `k` iterations left. -/
def construct_loop [LE R] [DecidableRel (fun u v : R => u ≤ v)]
    (constraint_lower constraint_upper : Nat → R) :
    Nat → Nat → Except String Unit
  | _, 0 => Except.ok ()
  | i, k + 1 =>
    if constraint_upper i ≤ constraint_lower i then
      Except.error "Interval: non-positive size"
    else
      construct_loop constraint_lower constraint_upper (i + 1) k

/-- Constructor `Box(int dimension, const double* constraint_lower,
const double* constraint_upper)`. -/
def construct [LE R] [DecidableRel (fun u v : R => u ≤ v)] (dimension : Int)
    (constraint_lower constraint_upper : Nat → R) :
    Except String (Box R) :=
  match construct_loop constraint_lower constraint_upper 0 dimension.toNat with
  | Except.error e => Except.error e
  | Except.ok _ =>
    Except.ok { dimension := dimension, a := constraint_lower, b := constraint_upper }

/-- Buffer `x` after the first `n` iterations of the loop of `t_to_x`. -/
def t_to_x_loop [Add R] [Sub R] [Mul R] [OfScientific R] (atan : R → R)
    (a b : Nat → R) (t : Nat → R) (x : Nat → R) :
    Nat → (Nat → R)
  | 0 => x
  | n + 1 =>
    Function.update (t_to_x_loop atan a b t x n) n
      (a n + (b n - a n) * (0.318309886183791 * atan (t n) + 0.5))

/-- Member `t_to_x(R* x, const R* t)`. -/
def t_to_x [Add R] [Sub R] [Mul R] [OfScientific R] (atan : R → R) (self : Box R)
    (x t : Nat → R) : Nat → R :=
  t_to_x_loop atan self.a self.b t x self.dimension.toNat

/-- Buffer `t` after the first `n` iterations of the loop of `x_to_t`. -/
def x_to_t_loop [Sub R] [Mul R] [Div R] [OfScientific R] (tan : R → R)
    (a b : Nat → R) (x : Nat → R) (t : Nat → R) :
    Nat → (Nat → R)
  | 0 => t
  | n + 1 =>
    Function.update (x_to_t_loop tan a b x t n) n
      (tan (((x n - a n) / (b n - a n) - 0.5) * 3.141592653589793))

/-- Member `x_to_t(R* t, const R* x)`. -/
def x_to_t [Sub R] [Mul R] [Div R] [OfScientific R] (tan : R → R) (self : Box R)
    (t x : Nat → R) : Nat → R :=
  x_to_t_loop tan self.a self.b x t self.dimension.toNat

/-- Member `x_dimension()`. -/
def x_dimension (self : Box R) : Int := self.dimension

/-- Member `t_dimension()`. -/
def t_dimension (self : Box R) : Int := self.dimension

end Box

/-! ## binary64: rounding lemmas -/

namespace Double

theorem round_zero : round 0 = fin 0 := by simp [round]

theorem rne_floor_le (s : ℚ) : ⌊s⌋ ≤ rne s := by
  unfold rne
  split_ifs <;> omega

theorem rne_le_floor_add_one (s : ℚ) : rne s ≤ ⌊s⌋ + 1 := by
  unfold rne
  split_ifs <;> omega

theorem rne_intCast (n : Int) : rne (n : ℚ) = n := by
  unfold rne
  simp

theorem rne_mono {s t : ℚ} (h : s ≤ t) : rne s ≤ rne t := by
  have hfl : ⌊s⌋ ≤ ⌊t⌋ := Int.floor_mono h
  rcases lt_or_eq_of_le hfl with hlt | heq
  · calc rne s ≤ ⌊s⌋ + 1 := rne_le_floor_add_one s
      _ ≤ ⌊t⌋ := hlt
      _ ≤ rne t := rne_floor_le t
  · unfold rne
    rw [heq]
    have hfr : s - (⌊t⌋ : ℚ) ≤ t - (⌊t⌋ : ℚ) := by linarith
    split_ifs <;> first | omega | linarith

theorem rne_nonneg {s : ℚ} (h : 0 ≤ s) : 0 ≤ rne s :=
  le_trans (Int.floor_nonneg.mpr h) (rne_floor_le s)

theorem two_zpow_pos (z : Int) : (0 : ℚ) < (2 : ℚ) ^ z := zpow_pos (by norm_num) z

theorem two_zpow_le_two_zpow {m n : Int} (h : m ≤ n) : (2 : ℚ) ^ m ≤ (2 : ℚ) ^ n :=
  zpow_le_zpow_right₀ (by norm_num) h

theorem two_zpow_log_le {q : ℚ} (hq : 0 < q) : (2 : ℚ) ^ Int.log 2 q ≤ q := by
  have h := Int.zpow_log_le_self (b := 2) (r := q) (by norm_num) hq
  simpa using h

theorem lt_two_zpow_log_succ (q : ℚ) : q < (2 : ℚ) ^ (Int.log 2 q + 1) := by
  have h := Int.lt_zpow_succ_log_self (b := 2) (by norm_num) q
  simpa using h

theorem ulpExp_mono {p q : ℚ} (hp : 0 < p) (h : p ≤ q) : ulpExp p ≤ ulpExp q := by
  unfold ulpExp
  have := Int.log_mono_right (b := 2) hp h
  omega

/-- A power of two with an exponent at or above the unit in the last place is
a whole number of units. -/
theorem two_zpow_div_ulp (z p : Int) (h : p ≤ z) :
    (2 : ℚ) ^ z / (2 : ℚ) ^ p = (((2 : Int) ^ (z - p).toNat : Int) : ℚ) := by
  have hz : z = p + ((z - p).toNat : Int) := by omega
  have hne : (2 : ℚ) ^ p ≠ 0 := ne_of_gt (two_zpow_pos p)
  rw [div_eq_iff hne]
  conv_lhs => rw [hz]
  rw [zpow_add₀ (by norm_num : (2 : ℚ) ≠ 0), zpow_natCast]
  push_cast
  ring

theorem roundMag_nonneg {q : ℚ} (hq : 0 < q) : 0 ≤ roundMag q := by
  unfold roundMag
  have h1 : 0 ≤ q / (2 : ℚ) ^ ulpExp q := le_of_lt (div_pos hq (two_zpow_pos _))
  have h2 : (0 : ℚ) ≤ (rne (q / (2 : ℚ) ^ ulpExp q) : ℚ) := by
    exact_mod_cast rne_nonneg h1
  exact mul_nonneg h2 (le_of_lt (two_zpow_pos _))

theorem roundMag_le_two_zpow {q : ℚ} {z : Int} (hq : q ≤ (2 : ℚ) ^ z)
    (hp : ulpExp q ≤ z) : roundMag q ≤ (2 : ℚ) ^ z := by
  unfold roundMag
  have hpos := two_zpow_pos (ulpExp q)
  have h1 : q / (2 : ℚ) ^ ulpExp q ≤ (2 : ℚ) ^ z / (2 : ℚ) ^ ulpExp q :=
    div_le_div_of_nonneg_right hq (le_of_lt hpos)
  rw [two_zpow_div_ulp z _ hp] at h1
  have h2 := rne_mono h1
  rw [rne_intCast] at h2
  have h3 : (rne (q / (2 : ℚ) ^ ulpExp q) : ℚ) ≤ (((2 : Int) ^ (z - ulpExp q).toNat : Int) : ℚ) := by
    exact_mod_cast h2
  calc (rne (q / (2 : ℚ) ^ ulpExp q) : ℚ) * (2 : ℚ) ^ ulpExp q
      ≤ (((2 : Int) ^ (z - ulpExp q).toNat : Int) : ℚ) * (2 : ℚ) ^ ulpExp q :=
        mul_le_mul_of_nonneg_right h3 (le_of_lt hpos)
    _ = (2 : ℚ) ^ z := by
        rw [← two_zpow_div_ulp z _ hp, div_mul_cancel₀ _ (ne_of_gt hpos)]

theorem two_zpow_le_roundMag {q : ℚ} {z : Int} (hq : (2 : ℚ) ^ z ≤ q)
    (hp : ulpExp q ≤ z) : (2 : ℚ) ^ z ≤ roundMag q := by
  unfold roundMag
  have hpos := two_zpow_pos (ulpExp q)
  have h1 : (2 : ℚ) ^ z / (2 : ℚ) ^ ulpExp q ≤ q / (2 : ℚ) ^ ulpExp q :=
    div_le_div_of_nonneg_right hq (le_of_lt hpos)
  rw [two_zpow_div_ulp z _ hp] at h1
  have h2 := rne_mono h1
  rw [rne_intCast] at h2
  have h3 : (((2 : Int) ^ (z - ulpExp q).toNat : Int) : ℚ) ≤ (rne (q / (2 : ℚ) ^ ulpExp q) : ℚ) := by
    exact_mod_cast h2
  calc (2 : ℚ) ^ z
      = (((2 : Int) ^ (z - ulpExp q).toNat : Int) : ℚ) * (2 : ℚ) ^ ulpExp q := by
        rw [← two_zpow_div_ulp z _ hp, div_mul_cancel₀ _ (ne_of_gt hpos)]
    _ ≤ (rne (q / (2 : ℚ) ^ ulpExp q) : ℚ) * (2 : ℚ) ^ ulpExp q :=
        mul_le_mul_of_nonneg_right h3 (le_of_lt hpos)

theorem roundMag_mono {p q : ℚ} (hp : 0 < p) (h : p ≤ q) : roundMag p ≤ roundMag q := by
  have hq : 0 < q := lt_of_lt_of_le hp h
  rcases lt_or_eq_of_le (ulpExp_mono hp h) with hlt | heq
  · -- the unit grows: a power of two separates the two values
    have hq2 : ulpExp q = Int.log 2 q - 52 := by
      unfold ulpExp at hlt ⊢
      omega
    have hp1 : Int.log 2 p - 52 ≤ ulpExp p := by
      unfold ulpExp
      omega
    have hple : p ≤ (2 : ℚ) ^ Int.log 2 q :=
      le_trans (le_of_lt (lt_two_zpow_log_succ p)) (two_zpow_le_two_zpow (by omega))
    calc roundMag p ≤ (2 : ℚ) ^ Int.log 2 q := roundMag_le_two_zpow hple (by omega)
      _ ≤ roundMag q := two_zpow_le_roundMag (two_zpow_log_le hq) (by omega)
  · unfold roundMag
    rw [heq]
    have hpos := two_zpow_pos (ulpExp q)
    have h1 : p / (2 : ℚ) ^ ulpExp q ≤ q / (2 : ℚ) ^ ulpExp q :=
      div_le_div_of_nonneg_right h (le_of_lt hpos)
    have h2 : (rne (p / (2 : ℚ) ^ ulpExp q) : ℚ) ≤ (rne (q / (2 : ℚ) ^ ulpExp q) : ℚ) := by
      exact_mod_cast rne_mono h1
    exact mul_le_mul_of_nonneg_right h2 (le_of_lt hpos)

/-- Overflow: from `2 ^ 1024` on, the rounded magnitude is `2 ^ 1024` or more. -/
theorem roundMag_overflow {q : ℚ} (hq : (2 : ℚ) ^ (1024 : Int) ≤ q) :
    (2 : ℚ) ^ (1024 : Int) ≤ roundMag q := by
  have hpos : 0 < q := lt_of_lt_of_le (two_zpow_pos 1024) hq
  have hlog : (1024 : Int) ≤ Int.log 2 q :=
    (Int.zpow_le_iff_le_log (b := 2) (by norm_num) hpos (x := 1024)).mp
      (by rw [Nat.cast_ofNat]; exact hq)
  have h1 : (2 : ℚ) ^ Int.log 2 q ≤ roundMag q :=
    two_zpow_le_roundMag (two_zpow_log_le hpos) (by unfold ulpExp; omega)
  exact le_trans (two_zpow_le_two_zpow hlog) h1

/-- Underflow: below half the smallest subnormal the rounded magnitude is `0`. -/
theorem roundMag_underflow {q : ℚ} (hq : 0 < q) (hs : q < (2 : ℚ) ^ (-1075 : Int)) :
    roundMag q = 0 := by
  have hlog : Int.log 2 q < -1075 :=
    (Int.lt_zpow_iff_log_lt (b := 2) (by norm_num) hq (x := -1075)).mp
      (by rw [Nat.cast_ofNat]; exact hs)
  have hu : ulpExp q = -1074 := by unfold ulpExp; omega
  unfold roundMag
  rw [hu]
  have hpos := two_zpow_pos (-1074)
  have h0 : 0 ≤ q / (2 : ℚ) ^ (-1074 : Int) := le_of_lt (div_pos hq hpos)
  have h1 : q / (2 : ℚ) ^ (-1074 : Int) < 1 / 2 := by
    rw [div_lt_iff₀ hpos]
    have h2 : (2 : ℚ) ^ (-1074 : Int) = (2 : ℚ) ^ (-1075 : Int) * 2 := by
      rw [show (-1074 : Int) = -1075 + 1 by norm_num,
        zpow_add_one₀ (by norm_num : (2 : ℚ) ≠ 0)]
    rw [h2]
    generalize (2 : ℚ) ^ (-1075 : Int) = u at hs ⊢
    linarith
  generalize q / (2 : ℚ) ^ (-1074 : Int) = s at h0 h1
  have hfl : ⌊s⌋ = 0 := by
    rw [Int.floor_eq_zero_iff]
    exact ⟨h0, by linarith⟩
  have hr : rne s = 0 := by
    unfold rne
    rw [hfl, if_pos (by push_cast; linarith)]
  rw [hr, Int.cast_zero, zero_mul]

theorem le_def (x y : Double) : x ≤ y ↔ ble x y = true := Iff.rfl

theorem lt_def (x y : Double) : x < y ↔ blt x y = true := Iff.rfl

theorem fin_le_fin (p q : ℚ) : fin p ≤ fin q ↔ p ≤ q := by
  rw [le_def]; simp [ble]

theorem fin_lt_fin (p q : ℚ) : fin p < fin q ↔ p < q := by
  rw [lt_def]; simp [blt]

theorem not_nan_le (x : Double) : ¬ nan ≤ x := by
  rw [le_def]; simp [ble]

theorem not_le_nan (x : Double) : ¬ x ≤ nan := by
  rw [le_def]; cases x <;> simp [ble]

theorem not_nan_lt (x : Double) : ¬ nan < x := by
  rw [lt_def]; simp [blt]

theorem not_lt_nan (x : Double) : ¬ x < nan := by
  rw [lt_def]; cases x <;> simp [blt]

theorem fin_add_fin (p q : ℚ) : fin p + fin q = round (p + q) := rfl

theorem fin_sub_fin (p q : ℚ) : fin p - fin q = round (p - q) := by
  show add (fin p) (neg (fin q)) = round (p - q)
  rw [sub_eq_add_neg]; rfl

theorem fin_mul_fin (p q : ℚ) : fin p * fin q = round (p * q) := rfl

theorem fin_div_fin (p q : ℚ) (hq : q ≠ 0) : fin p / fin q = round (p / q) := by
  show div (fin p) (fin q) = round (p / q)
  simp [div, hq]

theorem round_of_pos {q : ℚ} (hq : 0 < q) :
    round q = if (2 : ℚ) ^ (1024 : Int) ≤ roundMag q then inf false else fin (roundMag q) := by
  unfold round
  rw [if_neg (ne_of_gt hq), abs_of_pos hq]
  simp [not_lt.mpr (le_of_lt hq)]

theorem round_of_neg {q : ℚ} (hq : q < 0) :
    round q =
      if (2 : ℚ) ^ (1024 : Int) ≤ roundMag (-q) then inf true else fin (-roundMag (-q)) := by
  unfold round
  rw [if_neg (ne_of_lt hq), abs_of_neg hq]
  simp [hq]

/-- Rounding is monotone. -/
theorem round_mono {p q : ℚ} (h : p ≤ q) : round p ≤ round q := by
  rcases lt_trichotomy p 0 with hp | hp | hp
  · have hp' : 0 < -p := neg_pos.mpr hp
    have hMp := roundMag_nonneg hp'
    rcases lt_trichotomy q 0 with hq | hq | hq
    · have hq' : 0 < -q := neg_pos.mpr hq
      have hm := roundMag_mono hq' (neg_le_neg h)
      rw [round_of_neg hp, round_of_neg hq]
      by_cases hT : (2 : ℚ) ^ (1024 : Int) ≤ roundMag (-q)
      · rw [if_pos hT, if_pos (le_trans hT hm), le_def]; rfl
      · rw [if_neg hT]
        split_ifs
        · rw [le_def]; rfl
        · rw [fin_le_fin]; linarith
    · rw [hq, round_zero, round_of_neg hp]
      split_ifs
      · rw [le_def]; rfl
      · rw [fin_le_fin]; linarith
    · have hMq := roundMag_nonneg hq
      rw [round_of_neg hp, round_of_pos hq]
      split_ifs
      · rw [le_def]; rfl
      · rw [le_def]; rfl
      · rw [le_def]; rfl
      · rw [fin_le_fin]; linarith
  · have hq : 0 ≤ q := by linarith
    rcases lt_or_eq_of_le hq with hq | hq
    · have hMq := roundMag_nonneg hq
      rw [hp, round_zero, round_of_pos hq]
      split_ifs
      · rw [le_def]; rfl
      · rw [fin_le_fin]; exact hMq
    · rw [hp, ← hq, round_zero, fin_le_fin]
  · have hq : 0 < q := lt_of_lt_of_le hp h
    have hm := roundMag_mono hp h
    rw [round_of_pos hp, round_of_pos hq]
    by_cases hT : (2 : ℚ) ^ (1024 : Int) ≤ roundMag p
    · rw [if_pos hT, if_pos (le_trans hT hm), le_def]; rfl
    · rw [if_neg hT]
      split_ifs
      · rw [le_def]; rfl
      · rw [fin_le_fin]; exact hm

/-- Overflow of a positive exact result. -/
theorem round_overflow {q : ℚ} (hq : (2 : ℚ) ^ (1024 : Int) ≤ q) : round q = inf false := by
  have hpos : 0 < q := lt_of_lt_of_le (two_zpow_pos 1024) hq
  rw [round_of_pos hpos, if_pos (roundMag_overflow hq)]

/-- Underflow of a positive exact result. -/
theorem round_underflow {q : ℚ} (hq : 0 < q) (hs : q < (2 : ℚ) ^ (-1075 : Int)) :
    round q = fin 0 := by
  rw [round_of_pos hq, roundMag_underflow hq hs]
  rw [if_neg (not_le.mpr (two_zpow_pos 1024))]

theorem zero_eq : (0 : Double) = fin 0 := by
  show round ((0 : Nat) : ℚ) = fin 0
  simp [round]

theorem half_eq : (0.5 : Double) = fin (1 / 2) := by decide!
theorem one_eq : (1 : Double) = fin 1 := by decide!
theorem ten_eq : (10 : Double) = fin 10 := by decide!

end Double

/-! ## Loop lemmas -/

theorem GreaterThanZero.square_loop_apply {R : Type} [Mul R] (t x : Nat → R) (n j : Nat) :
    GreaterThanZero.t_to_x_loop t x n j = if j < n then t j * t j else x j := by
  induction n with
  | zero => simp [GreaterThanZero.t_to_x_loop]
  | succ n ih =>
    simp only [GreaterThanZero.t_to_x_loop, Function.update_apply]
    by_cases h : j = n
    · subst h; simp
    · have hlt : j < n + 1 ↔ j < n := by omega
      rw [if_neg h, ih]; simp [hlt]

theorem GreaterThanZero.sqrt_loop_apply {R : Type} (sqrt : R → R) (x t : Nat → R)
    (n j : Nat) :
    GreaterThanZero.x_to_t_loop sqrt x t n j = if j < n then sqrt (x j) else t j := by
  induction n with
  | zero => simp [GreaterThanZero.x_to_t_loop]
  | succ n ih =>
    simp only [GreaterThanZero.x_to_t_loop, Function.update_apply]
    by_cases h : j = n
    · subst h; simp
    · have hlt : j < n + 1 ↔ j < n := by omega
      rw [if_neg h, ih]; simp [hlt]

section BoxLemmas

variable {R : Type}

theorem Box.forward_loop_apply [Add R] [Sub R] [Mul R] [OfScientific R] (atan : R → R)
    (a b t x : Nat → R) (n j : Nat) :
    Box.t_to_x_loop atan a b t x n j =
      if j < n then a j + (b j - a j) * (0.318309886183791 * atan (t j) + 0.5)
      else x j := by
  induction n with
  | zero => simp [Box.t_to_x_loop]
  | succ n ih =>
    simp only [Box.t_to_x_loop, Function.update_apply]
    by_cases h : j = n
    · subst h; simp
    · have hlt : j < n + 1 ↔ j < n := by omega
      rw [if_neg h, ih]; simp [hlt]

theorem Box.inverse_loop_apply [Sub R] [Mul R] [Div R] [OfScientific R] (tan : R → R)
    (a b x t : Nat → R) (n j : Nat) :
    Box.x_to_t_loop tan a b x t n j =
      if j < n then tan (((x j - a j) / (b j - a j) - 0.5) * 3.141592653589793)
      else t j := by
  induction n with
  | zero => simp [Box.x_to_t_loop]
  | succ n ih =>
    simp only [Box.x_to_t_loop, Function.update_apply]
    by_cases h : j = n
    · subst h; simp
    · have hlt : j < n + 1 ↔ j < n := by omega
      rw [if_neg h, ih]; simp [hlt]

variable [LE R] [DecidableRel (fun u v : R => u ≤ v)]

/-- The validation loop either passes or throws the one message of the source. -/
theorem Box.scan_outcomes (lo up : Nat → R) (i k : Nat) :
    Box.construct_loop lo up i k = Except.ok () ∨
      Box.construct_loop lo up i k = Except.error "Interval: non-positive size" := by
  induction k generalizing i with
  | zero => left; rfl
  | succ k ih =>
    unfold Box.construct_loop
    by_cases h : up i ≤ lo i
    · right; simp [h]
    · simp only [if_neg h]; exact ih (i + 1)

/-- The validation loop passes exactly when the comparison `upper[j] <= lower[j]`
is false on every scanned axis. -/
theorem Box.scan_passes_iff (lo up : Nat → R) (i k : Nat) :
    Box.construct_loop lo up i k = Except.ok () ↔
      ∀ j, i ≤ j → j < i + k → ¬ up j ≤ lo j := by
  induction k generalizing i with
  | zero =>
    constructor
    · intro _ j h1 h2; omega
    · intro _; rfl
  | succ k ih =>
    unfold Box.construct_loop
    by_cases h : up i ≤ lo i
    · simp only [if_pos h]
      constructor
      · intro hc; cases hc
      · intro hall
        exact absurd h (hall i (le_refl i) (by omega))
    · simp only [if_neg h]
      rw [ih (i + 1)]
      constructor
      · intro hall j h1 h2
        by_cases hj : j = i
        · subst hj; exact h
        · exact hall j (by omega) (by omega)
      · intro hall j h1 h2
        exact hall j (by omega) (by omega)

/-- Outcome of the `Box` constructor in terms of its validation loop. -/
theorem Box.ctor_outcomes (d : Int) (lo up : Nat → R) :
    (Box.construct_loop lo up 0 d.toNat = Except.ok () ∧
        Box.construct d lo up = Except.ok { dimension := d, a := lo, b := up }) ∨
      (Box.construct_loop lo up 0 d.toNat = Except.error "Interval: non-positive size" ∧
        Box.construct d lo up = Except.error "Interval: non-positive size") := by
  unfold Box.construct
  rcases Box.scan_outcomes lo up 0 d.toNat with h | h
  · left; rw [h]; exact ⟨rfl, rfl⟩
  · right; rw [h]; exact ⟨rfl, rfl⟩

/-- A constructed `Box` stores the arguments, and the comparison
`upper[i] <= lower[i]` is false on each of its axes. -/
theorem Box.constructed_axes (d : Int) (lo up : Nat → R) (B : Box R)
    (h : Box.construct d lo up = Except.ok B) :
    B = { dimension := d, a := lo, b := up } ∧
      ∀ i : Nat, (i : Int) < d → ¬ up i ≤ lo i := by
  rcases Box.ctor_outcomes d lo up with ⟨hl, hc⟩ | ⟨_, hc⟩
  · rw [hc] at h
    refine ⟨(Except.ok.inj h).symm, ?_⟩
    intro i hi
    exact (Box.scan_passes_iff lo up 0 d.toNat).mp hl i (Nat.zero_le i) (by omega)
  · rw [hc] at h; cases h

/-- The constructor throws exactly when the comparison is true on some axis
of `[0, d)`. -/
theorem Box.ctor_error_iff (d : Int) (lo up : Nat → R) :
    (∃ e, Box.construct d lo up = Except.error e) ↔
      ∃ i : Nat, (i : Int) < d ∧ up i ≤ lo i := by
  have key : Box.construct_loop lo up 0 d.toNat = Except.ok () ↔
      ¬ ∃ i : Nat, (i : Int) < d ∧ up i ≤ lo i := by
    rw [Box.scan_passes_iff]
    constructor
    · rintro hall ⟨i, hi, hle⟩
      exact hall i (Nat.zero_le i) (by omega) hle
    · intro hno j _ hj hle
      exact hno ⟨j, by omega, hle⟩
  rcases Box.ctor_outcomes d lo up with ⟨hl, hc⟩ | ⟨hl, hc⟩
  · constructor
    · rintro ⟨e, he⟩; rw [hc] at he; cases he
    · intro hex; exact absurd hex (key.mp hl)
  · constructor
    · intro _
      by_contra hno
      rw [key.mpr hno] at hl; cases hl
    · intro _; exact ⟨_, hc⟩

/-- A constructed `Interval` stores its arguments, and the comparison
`b <= a` is false. -/
theorem Interval.constructed (a b : R) (I : Interval R)
    (h : Interval.construct a b = Except.ok I) :
    I = { a := a, b := b } ∧ ¬ b ≤ a := by
  unfold Interval.construct at h
  by_cases hle : b ≤ a
  · rw [if_pos hle] at h; cases h
  · rw [if_neg hle] at h
    cases h
    exact ⟨rfl, hle⟩

end BoxLemmas

/-- Over an ordered field, a constructed `Box` has `lower[i] < upper[i]` on
each of its axes. -/
theorem Box.constructed_axes_ordered {R : Type} [LinearOrderedField R] (d : Int)
    (lo up : Nat → R) (B : Box R) (h : Box.construct d lo up = Except.ok B) :
    B = { dimension := d, a := lo, b := up } ∧
      ∀ i : Nat, (i : Int) < d → lo i < up i := by
  obtain ⟨hB, hall⟩ := Box.constructed_axes d lo up B h
  exact ⟨hB, fun i hi => not_le.mp (hall i hi)⟩

/-! ## Construction -/

namespace Double

/-- Between two numbers, `a < b` is the negation of `b <= a`. -/
theorem lt_of_not_le {a b : Double} (ha : a ≠ nan) (hb : b ≠ nan) (h : ¬ b ≤ a) :
    a < b := by
  rw [le_def] at h
  rw [lt_def]
  cases a with
  | nan => exact absurd rfl ha
  | inf s =>
    cases b with
    | nan => exact absurd rfl hb
    | inf r => cases s <;> cases r <;> simp_all [ble, blt]
    | fin q => cases s <;> simp_all [ble, blt]
  | fin p =>
    cases b with
    | nan => exact absurd rfl hb
    | inf r => cases r <;> simp_all [ble, blt]
    | fin q => simp_all [ble, blt]

end Double

/-- C4, at the bounds `(NaN, 1)` and `(1, NaN)`: the comparison `b <= a` is
false, the `Interval` is constructed, and `b > a` is false. -/
theorem Interval.ctor_accepts_nan :
    Interval.construct Double.nan (1 : Double) =
        Except.ok { a := Double.nan, b := 1 } ∧
      ¬ (Double.nan < (1 : Double)) ∧
      Interval.construct (1 : Double) Double.nan =
        Except.ok { a := 1, b := Double.nan } ∧
      ¬ ((1 : Double) < Double.nan) := by
  refine ⟨?_, Double.not_nan_lt _, ?_, Double.not_lt_nan _⟩
  · unfold Interval.construct
    rw [if_neg (Double.not_le_nan _)]
  · unfold Interval.construct
    rw [if_neg (Double.not_nan_le _)]

/-- C4, amended: on `double` bounds the `Interval` constructor throws exactly
when the comparison `b <= a` is true; otherwise it succeeds and stores exactly
`(a, b)`; on a constructed `Interval` the comparison `b <= a` is false, which
is `a < b` when neither bound is a NaN.  `(5, 3)` and `(1, 1)` throw, `(1, 2)`
is constructed. -/
theorem Interval.ctor_throws_iff (a b : Double) :
    ((∃ e, Interval.construct a b = Except.error e) ↔ b ≤ a) ∧
      ((∃ I, Interval.construct a b = Except.ok I) ↔ ¬ b ≤ a) ∧
      (∀ I, Interval.construct a b = Except.ok I →
        I.a = a ∧ I.b = b ∧ ¬ I.b ≤ I.a ∧
          (a ≠ Double.nan → b ≠ Double.nan → I.a < I.b)) ∧
      (∃ e, Interval.construct (5 : Double) 3 = Except.error e) ∧
      (∃ e, Interval.construct (1 : Double) 1 = Except.error e) ∧
      Interval.construct (1 : Double) 2 = Except.ok { a := 1, b := 2 } := by
  refine ⟨?_, ?_, ?_, ?_, ?_, ?_⟩
  · unfold Interval.construct
    by_cases h : b ≤ a
    · simp [h]
    · simp [h]
  · unfold Interval.construct
    by_cases h : b ≤ a
    · simp [h]
    · simp [h]
  · intro I hI
    obtain ⟨hIeq, hle⟩ := Interval.constructed a b I hI
    subst hIeq
    exact ⟨rfl, rfl, hle, fun ha hb => Double.lt_of_not_le ha hb hle⟩
  · refine ⟨"Interval: non-positive size", ?_⟩
    unfold Interval.construct
    rw [if_pos (by decide!)]
  · refine ⟨"Interval: non-positive size", ?_⟩
    unfold Interval.construct
    rw [if_pos (by decide!)]
  · unfold Interval.construct
    rw [if_neg (by decide!)]

/-- C4 amended, applied at `(0, 10)`. -/
theorem Interval.ctor_throws_iff_witness :
    ¬ ((10 : Double) ≤ 0) ∧ (0 : Double) ≠ Double.nan ∧ (10 : Double) ≠ Double.nan ∧
      (∃ I, Interval.construct (0 : Double) 10 = Except.ok I) ∧
      (0 : Double) < 10 :=
  have hI : Interval.construct (0 : Double) 10 = Except.ok { a := 0, b := 10 } := by
    unfold Interval.construct
    rw [if_neg (by decide!)]
  ⟨by decide!, by decide!, by decide!,
    (Interval.ctor_throws_iff (0 : Double) 10).2.1.mpr (by decide!),
    ((Interval.ctor_throws_iff (0 : Double) 10).2.2.1 _ hI).2.2.2 (by decide!) (by decide!)⟩

/-- C5, at `Box(1, [NaN], [1])`: the comparison `upper[0] <= lower[0]` is
false, the `Box` is constructed, and `upper[0] > lower[0]` is false. -/
theorem Box.ctor_accepts_nan_axis :
    Box.construct (1 : Int) (fun _ => Double.nan) (fun _ => (1 : Double)) =
        Except.ok { dimension := 1, a := fun _ => Double.nan, b := fun _ => 1 } ∧
      ((0 : Nat) : Int) < 1 ∧
      ¬ ((fun _ : Nat => Double.nan) 0 < (fun _ : Nat => (1 : Double)) 0) := by
  refine ⟨?_, by decide, Double.not_nan_lt _⟩
  have h : ¬ ((1 : Double) ≤ Double.nan) := Double.not_le_nan _
  simp [Box.construct, Box.construct_loop, h]

/-- C5, amended: on `double` bounds the `Box` constructor throws exactly when
the comparison `upper[i] <= lower[i]` is true for some `i` with
`0 <= i < dimension`; otherwise it succeeds, storing its arguments, and on a
constructed `Box` that comparison is false on every axis, which is
`lower[i] < upper[i]` when neither bound of the axis is a NaN.
`Box(3, [0,0,0], [1,-1,1])` throws; a `Box` of dimension `<= 0` is always
constructed. -/
theorem Box.ctor_throws_iff_bad_axis (d : Int) (lo up : Nat → Double) :
    ((∃ e, Box.construct d lo up = Except.error e) ↔
        ∃ i : Nat, (i : Int) < d ∧ up i ≤ lo i) ∧
      ((∃ B, Box.construct d lo up = Except.ok B) ↔
        ¬ ∃ i : Nat, (i : Int) < d ∧ up i ≤ lo i) ∧
      (∀ B, Box.construct d lo up = Except.ok B →
        B.dimension = d ∧ B.a = lo ∧ B.b = up ∧
          ∀ i : Nat, (i : Int) < B.dimension →
            ¬ B.b i ≤ B.a i ∧
              (B.a i ≠ Double.nan → B.b i ≠ Double.nan → B.a i < B.b i)) ∧
      (∃ e, Box.construct (3 : Int) (fun i => ([0, 0, 0] : List Double).getD i 0)
        (fun i => ([1, -1, 1] : List Double).getD i 0) = Except.error e) ∧
      (d ≤ 0 → Box.construct d lo up = Except.ok { dimension := d, a := lo, b := up }) := by
  refine ⟨Box.ctor_error_iff d lo up, ?_, ?_, ?_, ?_⟩
  · rw [← Box.ctor_error_iff d lo up]
    rcases Box.ctor_outcomes d lo up with ⟨_, hc⟩ | ⟨_, hc⟩
    · constructor
      · rintro _ ⟨e, he⟩; rw [hc] at he; cases he
      · intro _; exact ⟨_, hc⟩
    · constructor
      · rintro ⟨B, hB⟩; rw [hc] at hB; cases hB
      · intro hno; exact absurd ⟨_, hc⟩ hno
  · intro B hB
    obtain ⟨hBeq, hall⟩ := Box.constructed_axes d lo up B hB
    subst hBeq
    exact ⟨rfl, rfl, rfl, fun i hi =>
      ⟨hall i hi, fun ha hb => Double.lt_of_not_le ha hb (hall i hi)⟩⟩
  · refine (Box.ctor_error_iff _ _ _).mpr ⟨1, by decide, ?_⟩
    show (-1 : Double) ≤ 0
    decide!
  · intro hd
    rcases Box.ctor_outcomes d lo up with ⟨_, hc⟩ | ⟨hl, _⟩
    · exact hc
    · have h0 : d.toNat = 0 := by omega
      rw [h0] at hl; cases hl

/-- C5 amended, applied at the one-axis box `[0, 1]` and at dimension `0`. -/
theorem Box.ctor_throws_iff_bad_axis_witness :
    (∃ B, Box.construct (1 : Int) (fun _ => (0 : Double)) (fun _ => 1) = Except.ok B) ∧
      Box.construct (0 : Int) (fun _ => (0 : Double)) (fun _ => 0) =
        Except.ok { dimension := 0, a := fun _ => 0, b := fun _ => 0 } :=
  ⟨(Box.ctor_throws_iff_bad_axis (1 : Int) (fun _ => (0 : Double)) (fun _ => 1)).2.1.mpr
      (by
        rintro ⟨i, _, hle⟩
        exact absurd hle (by decide!)),
    (Box.ctor_throws_iff_bad_axis (0 : Int) (fun _ => (0 : Double)) (fun _ => 0)).2.2.2.2
      (le_refl 0)⟩

/-! ## `Box` against `Interval` -/

/-- Coordinate `i` of `Box::t_to_x`, for `i` below the dimension. -/
theorem Box.t_to_x_coordinate {R : Type} [Add R] [Sub R] [Mul R] [OfScientific R]
    (atan : R → R) (B : Box R) (x t : Nat → R) (i : Nat)
    (hi : (i : Int) < B.dimension) :
    Box.t_to_x atan B x t i =
      B.a i + (B.b i - B.a i) * (0.318309886183791 * atan (t i) + 0.5) := by
  unfold Box.t_to_x
  rw [Box.forward_loop_apply, if_pos (by omega)]

/-- Coordinate `i` of `Box::x_to_t`, for `i` below the dimension. -/
theorem Box.x_to_t_coordinate {R : Type} [Sub R] [Mul R] [Div R] [OfScientific R]
    (tan : R → R) (B : Box R) (t x : Nat → R) (i : Nat)
    (hi : (i : Int) < B.dimension) :
    Box.x_to_t tan B t x i =
      tan (((x i - B.a i) / (B.b i - B.a i) - 0.5) * 3.141592653589793) := by
  unfold Box.x_to_t
  rw [Box.inverse_loop_apply, if_pos (by omega)]

section Coordinatewise

variable {R : Type} [LinearOrderedField R]

/-- C6: for a constructed `Box(dimension, lower, upper)` and `0 <= i < dimension`,
`Interval(lower[i], upper[i])` is constructed as well, coordinate `i` of
`Box::t_to_x` (of `Box::x_to_t`) is what that `Interval` computes from the
`i`-th input coordinate alone, and so it depends on no other input coordinate
(nor on the previous contents of the output buffer). -/
theorem Box.coordinatewise_Interval (atan tan : R → R) (d : Int) (lo up : Nat → R)
    (B : Box R) (hB : Box.construct d lo up = Except.ok B) (i : Nat)
    (hi : (i : Int) < d) :
    ∃ I : Interval R, Interval.construct (lo i) (up i) = Except.ok I ∧
      (∀ x t x0, Box.t_to_x atan B x t i =
        Interval.t_to_x atan I x0 (fun _ => t i) 0) ∧
      (∀ t x t0, Box.x_to_t tan B t x i =
        Interval.x_to_t tan I t0 (fun _ => x i) 0) ∧
      (∀ x x0 t s, t i = s i → Box.t_to_x atan B x t i = Box.t_to_x atan B x0 s i) ∧
      (∀ t t0 x y, x i = y i → Box.x_to_t tan B t x i = Box.x_to_t tan B t0 y i) := by
  obtain ⟨hBeq, hall⟩ := Box.constructed_axes_ordered d lo up B hB
  subst hBeq
  refine ⟨{ a := lo i, b := up i }, ?_, ?_, ?_, ?_, ?_⟩
  · unfold Interval.construct
    rw [if_neg (not_le.mpr (hall i hi))]
  · intro x t x0
    rw [Box.t_to_x_coordinate atan _ x t i hi]
    simp [Interval.t_to_x]
  · intro t x t0
    rw [Box.x_to_t_coordinate tan _ t x i hi]
    simp [Interval.x_to_t]
  · intro x x0 t s hts
    rw [Box.t_to_x_coordinate atan _ x t i hi, Box.t_to_x_coordinate atan _ x0 s i hi, hts]
  · intro t t0 x y hxy
    rw [Box.x_to_t_coordinate tan _ t x i hi, Box.x_to_t_coordinate tan _ t0 y i hi, hxy]

/-- C6, applied at axis `1` of the box `[0, 1] * [2, 5]` over the rationals. -/
theorem Box.coordinatewise_Interval_witness :
    Box.construct (2 : Int) (fun i => ([0, 2] : List ℚ).getD i 0)
        (fun i => ([1, 5] : List ℚ).getD i 0) =
      Except.ok { dimension := 2, a := fun i => ([0, 2] : List ℚ).getD i 0,
                  b := fun i => ([1, 5] : List ℚ).getD i 0 } ∧
      ((1 : Nat) : Int) < 2 ∧
      ∃ I : Interval ℚ, Interval.construct (2 : ℚ) 5 = Except.ok I ∧
        (∀ x t x0, Box.t_to_x id
            { dimension := 2, a := fun i => ([0, 2] : List ℚ).getD i 0,
              b := fun i => ([1, 5] : List ℚ).getD i 0 } x t 1 =
          Interval.t_to_x id I x0 (fun _ => t 1) 0) ∧
        (∀ t x t0, Box.x_to_t id
            { dimension := 2, a := fun i => ([0, 2] : List ℚ).getD i 0,
              b := fun i => ([1, 5] : List ℚ).getD i 0 } t x 1 =
          Interval.x_to_t id I t0 (fun _ => x 1) 0) ∧
        (∀ x x0 t s, t 1 = s 1 → Box.t_to_x id
            { dimension := 2, a := fun i => ([0, 2] : List ℚ).getD i 0,
              b := fun i => ([1, 5] : List ℚ).getD i 0 } x t 1 =
          Box.t_to_x id
            { dimension := 2, a := fun i => ([0, 2] : List ℚ).getD i 0,
              b := fun i => ([1, 5] : List ℚ).getD i 0 } x0 s 1) ∧
        (∀ t t0 x y, x 1 = y 1 → Box.x_to_t id
            { dimension := 2, a := fun i => ([0, 2] : List ℚ).getD i 0,
              b := fun i => ([1, 5] : List ℚ).getD i 0 } t x 1 =
          Box.x_to_t id
            { dimension := 2, a := fun i => ([0, 2] : List ℚ).getD i 0,
              b := fun i => ([1, 5] : List ℚ).getD i 0 } t0 y 1) :=
  have hc : Box.construct (2 : Int) (fun i => ([0, 2] : List ℚ).getD i 0)
        (fun i => ([1, 5] : List ℚ).getD i 0) =
      Except.ok { dimension := 2, a := fun i => ([0, 2] : List ℚ).getD i 0,
                  b := fun i => ([1, 5] : List ℚ).getD i 0 } := by
    norm_num [Box.construct, Box.construct_loop]
  ⟨hc, by decide,
    Box.coordinatewise_Interval id id 2 (fun i => ([0, 2] : List ℚ).getD i 0)
      (fun i => ([1, 5] : List ℚ).getD i 0) _ hc 1 (by decide)⟩

end Coordinatewise

/-! ## Midpoint and monotonicity -/

/-- Coordinate `0` of `Interval::t_to_x`. -/
theorem Interval.t_to_x_zero {R : Type} [Add R] [Sub R] [Mul R] [OfScientific R]
    (atan : R → R)
    (I : Interval R) (x t : Nat → R) :
    Interval.t_to_x atan I x t 0 =
      I.a + (I.b - I.a) * (0.318309886183791 * atan (t 0) + 0.5) := by
  simp [Interval.t_to_x]

/-- Coordinate `0` of `Interval::x_to_t`. -/
theorem Interval.x_to_t_zero {R : Type} [Sub R] [Mul R] [Div R] [OfScientific R]
    (tan : R → R)
    (I : Interval R) (t x : Nat → R) :
    Interval.x_to_t tan I t x 0 =
      tan (((x 0 - I.a) / (I.b - I.a) - 0.5) * 3.141592653589793) := by
  simp [Interval.x_to_t]

/-- A constructed `Interval` stores its arguments, and they are ordered. -/
theorem Interval.constructed_ordered {R : Type} [LinearOrderedField R] (a b : R)
    (I : Interval R) (h : Interval.construct a b = Except.ok I) :
    I = { a := a, b := b } ∧ a < b := by
  unfold Interval.construct at h
  by_cases hle : b ≤ a
  · rw [if_pos hle] at h; cases h
  · rw [if_neg hle] at h
    cases h
    exact ⟨rfl, not_le.mp hle⟩

/-- Coordinate `i` of `GreaterThanZero::t_to_x`, for `i` below the converted
dimension. -/
theorem GreaterThanZero.t_to_x_square {R : Type} [Mul R] (G : GreaterThanZero)
    (x t : Nat → R) (i : Nat) (hi : i < int_to_size_t G.dimension) :
    GreaterThanZero.t_to_x G x t i = t i * t i := by
  unfold GreaterThanZero.t_to_x
  rw [GreaterThanZero.square_loop_apply, if_pos hi]

/-- A non-negative `int` is unchanged by the conversion to `size_t`. -/
theorem int_to_size_t_of_nonneg (d : Int) (h0 : 0 ≤ d) (h1 : d < 2 ^ 31) :
    int_to_size_t d = d.toNat := by
  unfold int_to_size_t SIZE_T_RANGE
  rw [Int.emod_eq_of_lt h0 (by norm_num; omega)]

namespace Double

/-- With a zero arctangent the bracket of `t_to_x` is exactly one half. -/
theorem bracket_at_zero : (0.318309886183791 : Double) * 0 + 0.5 = 0.5 := by decide!

/-- The product of `+∞` with anything is a NaN or an infinity. -/
theorem inf_mul_cases (d : Double) :
    inf false * d = nan ∨ inf false * d = inf false ∨ inf false * d = inf true := by
  show mul (inf false) d = nan ∨ mul (inf false) d = inf false ∨ mul (inf false) d = inf true
  cases d with
  | nan => left; rfl
  | inf r => cases r <;> simp [mul]
  | fin q =>
    by_cases h0 : q = 0
    · left; simp [mul, h0]
    · by_cases hq : q < 0 <;> simp [mul, h0, hq]

/-- Half of `+∞` is `+∞`. -/
theorem inf_mul_half : inf false * 0.5 = inf false := by decide!

/-- Adding a NaN or an infinity to a finite number returns it unchanged. -/
theorem fin_add_special (q : ℚ) (y : Double)
    (h : y = nan ∨ y = inf false ∨ y = inf true) : fin q + y = y := by
  rcases h with h | h | h <;> subst h <;> rfl

/-- The difference `2 ^ 1023 - (-2 ^ 1023)` overflows. -/
theorem huge_sub_overflows :
    fin ((2 : ℚ) ^ (1023 : Int)) - fin (-(2 : ℚ) ^ (1023 : Int)) = inf false := by
  rw [fin_sub_fin]
  apply round_overflow
  have h : (2 : ℚ) ^ (1024 : Int) = (2 : ℚ) ^ (1023 : Int) * 2 := by
    rw [show (1024 : Int) = 1023 + 1 by norm_num, zpow_add_one₀ (by norm_num : (2 : ℚ) ≠ 0)]
  rw [h]
  linarith [two_zpow_pos 1023]

/-- The bounds `(-2 ^ 1023, 2 ^ 1023)` pass the test of the constructor. -/
theorem huge_bounds_ordered :
    ¬ (fin ((2 : ℚ) ^ (1023 : Int)) ≤ fin (-(2 : ℚ) ^ (1023 : Int))) := by
  rw [fin_le_fin]
  linarith [two_zpow_pos 1023]

end Double

/-- On `Interval(-2 ^ 1023, 2 ^ 1023)` the output of `t_to_x` is a NaN or an
infinity, whatever `atan` returns: `b - a` overflows to `+∞`. -/
theorem Interval.t_to_x_huge (atan : Double → Double) (x t : Nat → Double) :
    Interval.t_to_x atan
        { a := Double.fin (-(2 : ℚ) ^ (1023 : Int)), b := Double.fin ((2 : ℚ) ^ (1023 : Int)) }
        x t 0 = Double.nan ∨
      Interval.t_to_x atan
        { a := Double.fin (-(2 : ℚ) ^ (1023 : Int)), b := Double.fin ((2 : ℚ) ^ (1023 : Int)) }
        x t 0 = Double.inf false ∨
      Interval.t_to_x atan
        { a := Double.fin (-(2 : ℚ) ^ (1023 : Int)), b := Double.fin ((2 : ℚ) ^ (1023 : Int)) }
        x t 0 = Double.inf true := by
  rw [Interval.t_to_x_zero]
  simp only []
  rw [Double.huge_sub_overflows]
  have h := Double.inf_mul_cases (0.318309886183791 * atan (t 0) + 0.5)
  rw [Double.fin_add_special _ _ h]
  exact h

/-- C9, at `Interval(-2 ^ 1023, 2 ^ 1023)` (bounds `∓8.98846567431158e307`)
and `t = [0]`: the interval is constructed and its midpoint is `0`, but
`b - a` overflows, so the output is never a finite number, whatever `atan`
returns; with `atan(0) = 0` it is `+∞`. -/
theorem Interval.t_to_x_midpoint_overflows :
    Interval.construct (Double.fin (-(2 : ℚ) ^ (1023 : Int)))
        (Double.fin ((2 : ℚ) ^ (1023 : Int))) =
      Except.ok { a := Double.fin (-(2 : ℚ) ^ (1023 : Int)),
                  b := Double.fin ((2 : ℚ) ^ (1023 : Int)) } ∧
      (-(2 : ℚ) ^ (1023 : Int) + (2 : ℚ) ^ (1023 : Int)) / 2 = 0 ∧
      (∀ (atan : Double → Double) (x : Nat → Double) (m : ℚ),
        Interval.t_to_x atan
          { a := Double.fin (-(2 : ℚ) ^ (1023 : Int)),
            b := Double.fin ((2 : ℚ) ^ (1023 : Int)) } x (fun _ => 0) 0 ≠ Double.fin m) ∧
      (∀ (atan : Double → Double) (x : Nat → Double), atan 0 = 0 →
        Interval.t_to_x atan
          { a := Double.fin (-(2 : ℚ) ^ (1023 : Int)),
            b := Double.fin ((2 : ℚ) ^ (1023 : Int)) } x (fun _ => 0) 0 =
          Double.inf false) := by
  refine ⟨?_, by ring, ?_, ?_⟩
  · unfold Interval.construct
    rw [if_neg Double.huge_bounds_ordered]
  · intro atan x m
    rcases Interval.t_to_x_huge atan x (fun _ => 0) with h | h | h <;> rw [h] <;> simp
  · intro atan x h0
    rw [Interval.t_to_x_zero]
    simp only []
    rw [Double.huge_sub_overflows, h0, Double.bracket_at_zero, Double.inf_mul_half]
    rfl

/-- Midpoint in exact arithmetic: for real `a < b`, `Interval(a, b)` maps
`t = 0` to `(a + b) / 2`, and so does each axis of a constructed `Box`. -/
theorem t_to_x_midpoint_real :
    (∀ a b : ℝ, a < b →
      Interval.construct a b = Except.ok { a := a, b := b } ∧
        ∀ x : Nat → ℝ,
          Interval.t_to_x Real.arctan { a := a, b := b } x (fun _ => 0) 0 = (a + b) / 2) ∧
      (∀ x : Nat → ℝ,
        Interval.t_to_x Real.arctan { a := 0, b := 10 } x (fun _ => 0) 0 = 5) ∧
      (∀ (d : Int) (lo up : Nat → ℝ) (B : Box ℝ),
        Box.construct d lo up = Except.ok B →
          ∀ i : Nat, (i : Int) < d → ∀ x : Nat → ℝ,
            Box.t_to_x Real.arctan B x (fun _ => 0) i = (lo i + up i) / 2) := by
  refine ⟨?_, ?_, ?_⟩
  · intro a b hab
    constructor
    · unfold Interval.construct
      rw [if_neg (not_le.mpr hab)]
    · intro x
      rw [Interval.t_to_x_zero, Real.arctan_zero]
      simp only []
      ring
  · intro x
    rw [Interval.t_to_x_zero, Real.arctan_zero]
    norm_num
  · intro d lo up B hB i hi x
    obtain ⟨hBeq, _⟩ := Box.constructed_axes_ordered d lo up B hB
    subst hBeq
    rw [Box.t_to_x_coordinate Real.arctan _ x _ i hi, Real.arctan_zero]
    simp only []
    ring

/-- C9, amended.  In binary64, with `atan(0) = 0`, `Interval.t_to_x([0])`
returns `a + (b - a) * 0.5` in rounded arithmetic, and so does each axis `i`
in `[0, dimension)` of a constructed `Box`; the result is `(a + b) / 2` when
the subtraction, the halving and the addition are exact, as for
`Interval(0, 10)`, which maps `0` to `5`.  In exact real arithmetic the
result is `(a + b) / 2` for every `a < b` and every axis of a constructed
`Box`. -/
theorem t_to_x_midpoint :
    (∀ atan : Double → Double, atan 0 = 0 →
      ∀ (I : Interval Double) (x : Nat → Double),
        Interval.t_to_x atan I x (fun _ => 0) 0 = I.a + (I.b - I.a) * 0.5) ∧
      (∀ atan : Double → Double, atan 0 = 0 →
        ∀ (d : Int) (lo up : Nat → Double) (B : Box Double),
          Box.construct d lo up = Except.ok B →
            ∀ i : Nat, (i : Int) < d → ∀ x : Nat → Double,
              Box.t_to_x atan B x (fun _ => 0) i = lo i + (up i - lo i) * 0.5) ∧
      (∀ atan : Double → Double, atan 0 = 0 →
        ∀ (a b : ℚ) (x : Nat → Double),
          Double.round (b - a) = Double.fin (b - a) →
          Double.round ((b - a) * (1 / 2)) = Double.fin ((b - a) * (1 / 2)) →
          Double.round (a + (b - a) * (1 / 2)) = Double.fin (a + (b - a) * (1 / 2)) →
            Interval.t_to_x atan { a := Double.fin a, b := Double.fin b } x (fun _ => 0) 0 =
              Double.fin ((a + b) / 2)) ∧
      (∀ atan : Double → Double, atan 0 = 0 → ∀ x : Nat → Double,
        Interval.t_to_x atan { a := (0 : Double), b := 10 } x (fun _ => 0) 0 = 5) ∧
      (∀ a b : ℝ, a < b → ∀ x : Nat → ℝ,
        Interval.t_to_x Real.arctan { a := a, b := b } x (fun _ => 0) 0 = (a + b) / 2) ∧
      (∀ (d : Int) (lo up : Nat → ℝ) (B : Box ℝ),
        Box.construct d lo up = Except.ok B →
          ∀ i : Nat, (i : Int) < d → ∀ x : Nat → ℝ,
            Box.t_to_x Real.arctan B x (fun _ => 0) i = (lo i + up i) / 2) := by
  have hA : ∀ atan : Double → Double, atan 0 = 0 →
      ∀ (I : Interval Double) (x : Nat → Double),
        Interval.t_to_x atan I x (fun _ => 0) 0 = I.a + (I.b - I.a) * 0.5 := by
    intro atan h0 I x
    rw [Interval.t_to_x_zero, h0, Double.bracket_at_zero]
  refine ⟨hA, ?_, ?_, ?_, fun a b hab x => (t_to_x_midpoint_real.1 a b hab).2 x,
    t_to_x_midpoint_real.2.2⟩
  · intro atan h0 d lo up B hB i hi x
    obtain ⟨hBeq, _⟩ := Box.constructed_axes d lo up B hB
    subst hBeq
    rw [Box.t_to_x_coordinate atan _ x _ i hi]
    rw [h0, Double.bracket_at_zero]
  · intro atan h0 a b x h1 h2 h3
    rw [hA atan h0]
    simp only []
    rw [Double.fin_sub_fin, h1, Double.half_eq, Double.fin_mul_fin, h2, Double.fin_add_fin, h3]
    congr 1
    ring
  · intro atan h0 x
    rw [hA atan h0]
    decide!

/-- C9 amended, applied with the identity for `atan` at `Interval(0, 10)` and
at axis `1` of the box `[0, 1] * [2, 5]`, and over the reals at
`Interval(0, 10)`. -/
theorem t_to_x_midpoint_witness :
    (fun t : Double => t) 0 = 0 ∧
      Interval.t_to_x (fun t : Double => t) { a := (0 : Double), b := 10 } (fun _ => 0)
          (fun _ => 0) 0 = 5 ∧
      Box.construct (2 : Int) (fun i => ([0, 2] : List Double).getD i 0)
          (fun i => ([1, 5] : List Double).getD i 0) =
        Except.ok { dimension := 2, a := fun i => ([0, 2] : List Double).getD i 0,
                    b := fun i => ([1, 5] : List Double).getD i 0 } ∧
      Box.t_to_x (fun t : Double => t)
          { dimension := 2, a := fun i => ([0, 2] : List Double).getD i 0,
            b := fun i => ([1, 5] : List Double).getD i 0 } (fun _ => 0) (fun _ => 0) 1 =
        ([0, 2] : List Double).getD 1 0 +
          (([1, 5] : List Double).getD 1 0 - ([0, 2] : List Double).getD 1 0) * 0.5 ∧
      (0 : ℝ) < 10 ∧
      Interval.t_to_x Real.arctan { a := (0 : ℝ), b := 10 } (fun _ => 0) (fun _ => 0) 0
        = (0 + 10) / 2 :=
  have hc : Box.construct (2 : Int) (fun i => ([0, 2] : List Double).getD i 0)
        (fun i => ([1, 5] : List Double).getD i 0) =
      Except.ok { dimension := 2, a := fun i => ([0, 2] : List Double).getD i 0,
                  b := fun i => ([1, 5] : List Double).getD i 0 } := by
    have h1 : ¬ ((1 : Double) ≤ 0) := by decide!
    have h2 : ¬ ((5 : Double) ≤ 2) := by decide!
    simp [Box.construct, Box.construct_loop, h1, h2]
  ⟨rfl, t_to_x_midpoint.2.2.2.1 (fun t => t) rfl (fun _ => 0), hc,
    t_to_x_midpoint.2.1 (fun t => t) rfl 2 _ _ _ hc 1 (by decide) (fun _ => 0),
    by norm_num,
    t_to_x_midpoint.2.2.2.2.1 0 10 (by norm_num) (fun _ => 0)⟩

/-- Monotonicity in exact arithmetic: for real `a < b`, coordinate `0` of
`Interval::t_to_x` is strictly increasing in `t[0]`, hence injective; and for
`GreaterThanZero` of an `int` dimension `d`, every coordinate `i` in `[0, d)`
of the output is `t[i] * t[i]` and is non-decreasing in `t[i]` on
`t[i] >= 0`. -/
theorem t_to_x_monotone_real :
    (∀ a b : ℝ, a < b → ∀ (x y s t : Nat → ℝ),
      (s 0 < t 0 →
        Interval.t_to_x Real.arctan { a := a, b := b } x s 0 <
          Interval.t_to_x Real.arctan { a := a, b := b } y t 0) ∧
      (Interval.t_to_x Real.arctan { a := a, b := b } x s 0 =
          Interval.t_to_x Real.arctan { a := a, b := b } y t 0 → s 0 = t 0)) ∧
      (∀ (d : Int), d < 2 ^ 31 → ∀ i : Nat, (i : Int) < d → ∀ (x y s t : Nat → ℝ),
        0 ≤ s i → s i ≤ t i →
          GreaterThanZero.t_to_x (GreaterThanZero.construct d) x s i = s i * s i ∧
          GreaterThanZero.t_to_x (GreaterThanZero.construct d) y t i = t i * t i ∧
          GreaterThanZero.t_to_x (GreaterThanZero.construct d) x s i ≤
            GreaterThanZero.t_to_x (GreaterThanZero.construct d) y t i) := by
  have hmono : ∀ a b : ℝ, a < b → ∀ u v : ℝ, u < v →
      a + (b - a) * (0.318309886183791 * Real.arctan u + 0.5) <
        a + (b - a) * (0.318309886183791 * Real.arctan v + 0.5) := by
    intro a b hab u v huv
    have h1 : Real.arctan u < Real.arctan v := Real.arctan_strictMono huv
    have h2 : 0 < b - a := sub_pos.mpr hab
    have h3 : (0.318309886183791 : ℝ) * Real.arctan u + 0.5 <
        0.318309886183791 * Real.arctan v + 0.5 := by
      have hc : (0 : ℝ) < 0.318309886183791 := by norm_num
      linarith [mul_lt_mul_of_pos_left h1 hc]
    linarith [mul_lt_mul_of_pos_left h3 h2]
  refine ⟨?_, ?_⟩
  · intro a b hab x y s t
    rw [Interval.t_to_x_zero, Interval.t_to_x_zero]
    refine ⟨hmono a b hab (s 0) (t 0), ?_⟩
    intro heq
    rcases lt_trichotomy (s 0) (t 0) with h | h | h
    · exact absurd heq (ne_of_lt (hmono a b hab _ _ h))
    · exact h
    · exact absurd heq (ne_of_gt (hmono a b hab _ _ h))
  · intro d hd i hi x y s t hs hst
    have hb : i < int_to_size_t (GreaterThanZero.construct d).dimension := by
      show i < int_to_size_t d
      rw [int_to_size_t_of_nonneg d (by omega) hd]; omega
    rw [GreaterThanZero.t_to_x_square _ x s i hb, GreaterThanZero.t_to_x_square _ y t i hb]
    exact ⟨rfl, rfl, mul_le_mul hst hst hs (le_trans hs hst)⟩

namespace Double

theorem fin_mul_inf (p : ℚ) (s : Bool) :
    fin p * inf s = if p = 0 then nan else inf (xor s (decide (p < 0))) := rfl

theorem inf_mul_inf (s r : Bool) : inf s * inf r = inf (xor s r) := rfl

theorem inf_add_fin (s : Bool) (q : ℚ) : inf s + fin q = inf s := rfl

theorem fin_add_inf (q : ℚ) (s : Bool) : fin q + inf s = inf s := rfl

/-- Rounding returns a finite number or an infinity, never a NaN. -/
theorem round_cases (q : ℚ) :
    (∃ m, round q = fin m) ∨ round q = inf false ∨ round q = inf true := by
  unfold round
  split_ifs with h0 h1 h2
  · exact Or.inl ⟨_, rfl⟩
  · by_cases hq : q < 0 <;> simp [hq]
  · exact Or.inl ⟨_, rfl⟩
  · exact Or.inl ⟨_, rfl⟩

theorem le_inf_false {x : Double} (hx : x ≠ nan) : x ≤ inf false := by
  rw [le_def]
  cases x with
  | nan => exact absurd rfl hx
  | inf s => cases s <;> rfl
  | fin q => rfl

theorem inf_true_le {x : Double} (hx : x ≠ nan) : inf true ≤ x := by
  rw [le_def]
  cases x with
  | nan => exact absurd rfl hx
  | inf s => cases s <;> rfl
  | fin q => rfl

theorem round_ne_nan (q : ℚ) : round q ≠ nan := by
  rcases round_cases q with ⟨m, h⟩ | h | h <;> rw [h] <;> simp

theorem ne_nan_of_le_left {x y : Double} (h : x ≤ y) : x ≠ nan := by
  rintro rfl
  exact not_nan_le y h

theorem ne_nan_of_le_right {x y : Double} (h : x ≤ y) : y ≠ nan := by
  rintro rfl
  exact not_le_nan x h

theorem le_refl_of_ne_nan {x : Double} (hx : x ≠ nan) : x ≤ x := by
  rw [le_def]
  cases x with
  | nan => exact absurd rfl hx
  | inf s => cases s <;> rfl
  | fin q => simp [ble]

/-- Multiplying by a positive finite constant is monotone. -/
theorem fin_mul_mono {c : ℚ} (hc : 0 < c) {x y : Double} (h : x ≤ y) :
    fin c * x ≤ fin c * y := by
  have hc0 : c ≠ 0 := ne_of_gt hc
  have hcn : ¬ c < 0 := not_lt.mpr (le_of_lt hc)
  cases x with
  | nan => exact absurd h (not_nan_le y)
  | inf s =>
    cases y with
    | nan => exact absurd h (not_le_nan _)
    | inf r =>
      rw [fin_mul_inf, fin_mul_inf, if_neg hc0, if_neg hc0]
      simpa [hcn] using h
    | fin q =>
      rw [fin_mul_inf, if_neg hc0, fin_mul_fin]
      have hs : s = true := by
        rw [le_def] at h
        simpa [ble] using h
      subst hs
      simpa [hcn] using inf_true_le (round_ne_nan (c * q))
  | fin p =>
    cases y with
    | nan => exact absurd h (not_le_nan _)
    | inf r =>
      rw [fin_mul_inf, if_neg hc0, fin_mul_fin]
      have hr : r = false := by
        rw [le_def] at h
        simpa [ble] using h
      subst hr
      simpa [hcn] using le_inf_false (round_ne_nan (c * p))
    | fin q =>
      rw [fin_mul_fin, fin_mul_fin]
      exact round_mono (mul_le_mul_of_nonneg_left ((fin_le_fin p q).mp h) (le_of_lt hc))

/-- Adding a finite constant on the right is monotone. -/
theorem add_fin_mono (c : ℚ) {x y : Double} (h : x ≤ y) : x + fin c ≤ y + fin c := by
  cases x with
  | nan => exact absurd h (not_nan_le y)
  | inf s =>
    cases y with
    | nan => exact absurd h (not_le_nan _)
    | inf r => rw [inf_add_fin, inf_add_fin]; exact h
    | fin q =>
      rw [inf_add_fin, fin_add_fin]
      have hs : s = true := by
        rw [le_def] at h
        simpa [ble] using h
      subst hs
      exact inf_true_le (round_ne_nan _)
  | fin p =>
    cases y with
    | nan => exact absurd h (not_le_nan _)
    | inf r =>
      rw [inf_add_fin, fin_add_fin]
      have hr : r = false := by
        rw [le_def] at h
        simpa [ble] using h
      subst hr
      exact le_inf_false (round_ne_nan _)
    | fin q =>
      rw [fin_add_fin, fin_add_fin]
      exact round_mono (by linarith [(fin_le_fin p q).mp h])

/-- Adding a finite constant on the left is monotone. -/
theorem fin_add_mono (c : ℚ) {x y : Double} (h : x ≤ y) : fin c + x ≤ fin c + y := by
  cases x with
  | nan => exact absurd h (not_nan_le y)
  | inf s =>
    cases y with
    | nan => exact absurd h (not_le_nan _)
    | inf r => rw [fin_add_inf, fin_add_inf]; exact h
    | fin q =>
      rw [fin_add_inf, fin_add_fin]
      have hs : s = true := by
        rw [le_def] at h
        simpa [ble] using h
      subst hs
      exact inf_true_le (round_ne_nan _)
  | fin p =>
    cases y with
    | nan => exact absurd h (not_le_nan _)
    | inf r =>
      rw [fin_add_inf, fin_add_fin]
      have hr : r = false := by
        rw [le_def] at h
        simpa [ble] using h
      subst hr
      exact le_inf_false (round_ne_nan _)
    | fin q =>
      rw [fin_add_fin, fin_add_fin]
      exact round_mono (by linarith [(fin_le_fin p q).mp h])

/-- Squaring is monotone on the non-negative numbers. -/
theorem mul_self_mono {x y : Double} (hx : fin 0 ≤ x) (h : x ≤ y) : x * x ≤ y * y := by
  cases x with
  | nan => exact absurd h (not_nan_le y)
  | inf s =>
    have hs : s = false := by
      rw [le_def] at hx
      simpa [ble] using hx
    subst hs
    cases y with
    | nan => exact absurd h (not_le_nan _)
    | inf r =>
      have hr : r = false := by
        rw [le_def] at h
        simpa [ble] using h
      subst hr
      rw [le_def]; rfl
    | fin q =>
      rw [le_def] at h
      simp [ble] at h
  | fin p =>
    have hp : 0 ≤ p := (fin_le_fin 0 p).mp hx
    cases y with
    | nan => exact absurd h (not_le_nan _)
    | inf r =>
      rw [fin_mul_fin, inf_mul_inf]
      simpa using le_inf_false (round_ne_nan (p * p))
    | fin q =>
      have hpq : p ≤ q := (fin_le_fin p q).mp h
      rw [fin_mul_fin, fin_mul_fin]
      exact round_mono (mul_le_mul hpq hpq hp (le_trans hp hpq))

end Double

namespace Double

theorem c1_eq :
    (0.318309886183791 : Double) = fin (5734161139222665 / 18014398509481984) := by
  decide!

theorem c2_eq :
    (3.141592653589793 : Double) = fin (884279719003555 / 281474976710656) := by
  decide!

end Double

/-- In binary64 coordinate `0` of `Interval::t_to_x` is non-decreasing in
`t[0]`, for a finite lower end, a finite positive width `b - a` and a
non-decreasing `atan`. -/
theorem Interval.t_to_x_mono_double (atan : Double → Double)
    (hatan : ∀ u v : Double, u ≤ v → atan u ≤ atan v)
    (qa w : ℚ) (b : Double) (hw : 0 < w) (hsub : b - Double.fin qa = Double.fin w)
    (x y s t : Nat → Double) (hst : s 0 ≤ t 0) :
    Interval.t_to_x atan { a := Double.fin qa, b := b } x s 0 ≤
      Interval.t_to_x atan { a := Double.fin qa, b := b } y t 0 := by
  rw [Interval.t_to_x_zero, Interval.t_to_x_zero]
  simp only []
  rw [hsub, Double.c1_eq, Double.half_eq]
  apply Double.fin_add_mono
  apply Double.fin_mul_mono hw
  apply Double.add_fin_mono
  apply Double.fin_mul_mono (by norm_num)
  exact hatan _ _ hst

/-- C10, at `Interval(-2 ^ 1023, 2 ^ 1023)` (bounds `∓8.98846567431158e307`)
and `t = 1 < 2 < 3`: the interval is constructed, and whatever `atan` returns
the three outputs are not strictly increasing, because `b - a` overflows and
every output is a NaN or an infinity. -/
theorem Interval.t_to_x_not_strictly_increasing :
    Interval.construct (Double.fin (-(2 : ℚ) ^ (1023 : Int)))
        (Double.fin ((2 : ℚ) ^ (1023 : Int))) =
      Except.ok { a := Double.fin (-(2 : ℚ) ^ (1023 : Int)),
                  b := Double.fin ((2 : ℚ) ^ (1023 : Int)) } ∧
      (1 : Double) < 2 ∧ (2 : Double) < 3 ∧
      (∀ (atan : Double → Double) (x : Nat → Double),
        ¬ (Interval.t_to_x atan
              { a := Double.fin (-(2 : ℚ) ^ (1023 : Int)),
                b := Double.fin ((2 : ℚ) ^ (1023 : Int)) } x (fun _ => 1) 0 <
            Interval.t_to_x atan
              { a := Double.fin (-(2 : ℚ) ^ (1023 : Int)),
                b := Double.fin ((2 : ℚ) ^ (1023 : Int)) } x (fun _ => 2) 0 ∧
          Interval.t_to_x atan
              { a := Double.fin (-(2 : ℚ) ^ (1023 : Int)),
                b := Double.fin ((2 : ℚ) ^ (1023 : Int)) } x (fun _ => 2) 0 <
            Interval.t_to_x atan
              { a := Double.fin (-(2 : ℚ) ^ (1023 : Int)),
                b := Double.fin ((2 : ℚ) ^ (1023 : Int)) } x (fun _ => 3) 0)) := by
  refine ⟨?_, by decide!, by decide!, ?_⟩
  · unfold Interval.construct
    rw [if_neg Double.huge_bounds_ordered]
  · intro atan x
    rcases Interval.t_to_x_huge atan x (fun _ => 1) with h1 | h1 | h1 <;>
    rcases Interval.t_to_x_huge atan x (fun _ => 2) with h2 | h2 | h2 <;>
    rcases Interval.t_to_x_huge atan x (fun _ => 3) with h3 | h3 | h3 <;>
    rw [h1, h2, h3] <;>
    simp [Double.lt_def, Double.blt]

/-- C10, amended.  In binary64 coordinate `0` of `Interval::t_to_x` is
non-decreasing in `t[0]` (for a finite lower end, a finite positive rounded
width `b - a` and a non-decreasing `atan`), and for `GreaterThanZero` of an
`int` dimension `d` every coordinate `i` in `[0, d)` of the output is
`t[i] * t[i]` and is non-decreasing in `t[i]` on `t[i] >= 0`.  In exact real
arithmetic, for `a < b`, coordinate `0` of `Interval::t_to_x` is strictly
increasing in `t[0]`, hence injective. -/
theorem t_to_x_monotone :
    (∀ atan : Double → Double, (∀ u v : Double, u ≤ v → atan u ≤ atan v) →
      ∀ (qa w : ℚ) (b : Double), 0 < w → b - Double.fin qa = Double.fin w →
        ∀ (x y s t : Nat → Double), s 0 ≤ t 0 →
          Interval.t_to_x atan { a := Double.fin qa, b := b } x s 0 ≤
            Interval.t_to_x atan { a := Double.fin qa, b := b } y t 0) ∧
      (∀ (d : Int), d < 2 ^ 31 → ∀ i : Nat, (i : Int) < d →
        ∀ (x y s t : Nat → Double), (0 : Double) ≤ s i → s i ≤ t i →
          GreaterThanZero.t_to_x (GreaterThanZero.construct d) x s i = s i * s i ∧
          GreaterThanZero.t_to_x (GreaterThanZero.construct d) y t i = t i * t i ∧
          GreaterThanZero.t_to_x (GreaterThanZero.construct d) x s i ≤
            GreaterThanZero.t_to_x (GreaterThanZero.construct d) y t i) ∧
      (∀ a b : ℝ, a < b → ∀ (x y s t : Nat → ℝ),
        (s 0 < t 0 →
          Interval.t_to_x Real.arctan { a := a, b := b } x s 0 <
            Interval.t_to_x Real.arctan { a := a, b := b } y t 0) ∧
        (Interval.t_to_x Real.arctan { a := a, b := b } x s 0 =
            Interval.t_to_x Real.arctan { a := a, b := b } y t 0 → s 0 = t 0)) := by
  refine ⟨?_, ?_, t_to_x_monotone_real.1⟩
  · intro atan hatan qa w b hw hsub x y s t hst
    exact Interval.t_to_x_mono_double atan hatan qa w b hw hsub x y s t hst
  · intro d hd i hi x y s t hs hst
    have hb : i < int_to_size_t (GreaterThanZero.construct d).dimension := by
      show i < int_to_size_t d
      rw [int_to_size_t_of_nonneg d (by omega) hd]; omega
    rw [GreaterThanZero.t_to_x_square _ x s i hb, GreaterThanZero.t_to_x_square _ y t i hb]
    rw [Double.zero_eq] at hs
    exact ⟨rfl, rfl, Double.mul_self_mono hs hst⟩

/-- C10 amended, applied in binary64 at `Interval(0, 10)` with the identity
for `atan` and `t = 1 <= 2`, at `GreaterThanZero(3)`, coordinate `2`, with
`t = 1 <= 2`, and over the reals at `Interval(0, 10)` with `t = 1 < 2`. -/
theorem t_to_x_monotone_witness :
    ((10 : Double) - Double.fin 0 = Double.fin 10) ∧ (1 : Double) ≤ 2 ∧
      Interval.t_to_x (fun u : Double => u) { a := Double.fin 0, b := 10 } (fun _ => 0)
          (fun _ => 1) 0 ≤
        Interval.t_to_x (fun u : Double => u) { a := Double.fin 0, b := 10 } (fun _ => 0)
          (fun _ => 2) 0 ∧
      ((2 : Nat) : Int) < 3 ∧ (0 : Double) ≤ 1 ∧
      GreaterThanZero.t_to_x (GreaterThanZero.construct 3) (fun _ => (0 : Double))
          (fun _ => 1) 2 ≤
        GreaterThanZero.t_to_x (GreaterThanZero.construct 3) (fun _ => (0 : Double))
          (fun _ => 2) 2 ∧
      (0 : ℝ) < 10 ∧ (1 : ℝ) < 2 ∧
      Interval.t_to_x Real.arctan { a := (0 : ℝ), b := 10 } (fun _ => 0) (fun _ => 1) 0 <
        Interval.t_to_x Real.arctan { a := (0 : ℝ), b := 10 } (fun _ => 0) (fun _ => 2) 0 :=
  ⟨by decide!, by decide!,
    t_to_x_monotone.1 (fun u => u) (fun _ _ h => h) 0 10 10 (by norm_num) (by decide!)
      (fun _ => 0) (fun _ => 0) (fun _ => 1) (fun _ => 2) (by decide!),
    by decide, by decide!,
    (t_to_x_monotone.2.1 3 (by norm_num) 2 (by decide) (fun _ => 0) (fun _ => 0)
      (fun _ => 1) (fun _ => 2) (by decide!) (by decide!)).2.2,
    by norm_num, by norm_num,
    (t_to_x_monotone.2.2 0 10 (by norm_num) (fun _ => 0) (fun _ => 0) (fun _ => 1)
      (fun _ => 2)).1 (by norm_num)⟩

/-! ## The literal `0.318309886183791`

The header comment of `Interval` gives the pair `x = a + (b-a)*(1/pi * arctan(t) + 0.5)`,
`t = tan(((x - a) / (b - a) - 0.5) * pi)`.  The code writes `0.318309886183791`
for `1/pi` and `3.141592653589793` for `pi`.  The first literal is larger than
`1/pi`, and the product of the two is larger than `1`. -/

/-- The literal standing for `1/pi` is larger than `1/pi`. -/
theorem inv_pi_literal_gt : 1 < (0.318309886183791 : ℝ) * Real.pi := by
  have h := Real.pi_gt_d20
  have h2 : (1 : ℝ) < 0.318309886183791 * 3.14159265358979323846 := by norm_num
  have hc : (0 : ℝ) < 0.318309886183791 := by norm_num
  linarith [mul_lt_mul_of_pos_left h hc]

/-- The two literals are not reciprocal: their product exceeds `1`. -/
theorem literal_product_gt_one :
    (1 : ℝ) < 0.318309886183791 * 3.141592653589793 := by
  norm_num

/-- The arctangent stays below its argument on the positive reals. -/
theorem arctan_lt_self_of_pos (y : ℝ) (hy : 0 < y) : Real.arctan y < y := by
  have h0 : 0 < Real.arctan y := by
    have := Real.arctan_strictMono hy
    rwa [Real.arctan_zero] at this
  have h := Real.lt_tan h0 (Real.arctan_lt_pi_div_two y)
  rwa [Real.tan_arctan] at h

/-- At `10 ^ 16` the arctangent is within `10 ^ (-16)` of `pi / 2`. -/
theorem arctan_large : Real.pi / 2 - 1 / 10 ^ 16 < Real.arctan (10 ^ 16) := by
  have hpos : (0 : ℝ) < (10 ^ 16)⁻¹ := by positivity
  have h1 := Real.arctan_inv_of_pos hpos
  rw [inv_inv] at h1
  have h2 := arctan_lt_self_of_pos _ hpos
  rw [h1]
  have h3 : ((10 : ℝ) ^ 16)⁻¹ = 1 / 10 ^ 16 := by rw [one_div]
  linarith

/-- The scaled arctangent of the code exceeds `1/2` at `t = 10 ^ 16`. -/
theorem scaled_arctan_large :
    (0.5 : ℝ) < 0.318309886183791 * Real.arctan (10 ^ 16) := by
  have h := arctan_large
  have hpi := Real.pi_gt_d20
  have hc : (0 : ℝ) < 0.318309886183791 := by norm_num
  have h4 : (0.5 : ℝ) <
      0.318309886183791 * (3.14159265358979323846 / 2 - 1 / 10 ^ 16) := by norm_num
  have h5 : (3.14159265358979323846 : ℝ) / 2 - 1 / 10 ^ 16 < Real.arctan (10 ^ 16) := by
    linarith
  linarith [mul_lt_mul_of_pos_left h5 hc]

/-- C1, at `Interval(0, 10)`: the interval is constructed, and the image of
`t = 10 ^ 16` is larger than the upper end `10`, the image of `t = -10 ^ 16`
smaller than the lower end `0`. -/
theorem Interval.t_to_x_leaves_interval :
    Interval.construct (0 : ℝ) 10 = Except.ok { a := 0, b := 10 } ∧
      (10 : ℝ) <
        Interval.t_to_x Real.arctan { a := 0, b := 10 } (fun _ => 0) (fun _ => 10 ^ 16) 0 ∧
      Interval.t_to_x Real.arctan { a := (0 : ℝ), b := 10 } (fun _ => 0)
        (fun _ => -10 ^ 16) 0 < 0 := by
  have h := scaled_arctan_large
  refine ⟨?_, ?_, ?_⟩
  · unfold Interval.construct
    rw [if_neg (by norm_num)]
  · rw [Interval.t_to_x_zero]
    simp only []
    norm_num
    linarith
  · rw [Interval.t_to_x_zero]
    simp only []
    rw [Real.arctan_neg]
    norm_num
    linarith

/-- Mapping `t = 10 ^ 16` to `x` and back through `Interval(0, 10)` lands the
tangent argument beyond `pi / 2`, so the value returned is negative. -/
theorem Interval.round_trip_large_neg :
    Interval.x_to_t Real.tan { a := (0 : ℝ), b := 10 } (fun _ => 0)
        (Interval.t_to_x Real.arctan { a := (0 : ℝ), b := 10 } (fun _ => 0)
          (fun _ => 10 ^ 16)) 0 < 0 := by
  rw [Interval.x_to_t_zero, Interval.t_to_x_zero]
  simp only []
  have hu : (((0 : ℝ) + (10 - 0) * (0.318309886183791 * Real.arctan (10 ^ 16) + 0.5) - 0) /
      (10 - 0) - 0.5) * 3.141592653589793 =
      0.318309886183791 * 3.141592653589793 * Real.arctan (10 ^ 16) := by ring
  rw [hu]
  have hA1 := arctan_large
  have hA2 := Real.arctan_lt_pi_div_two (10 ^ 16)
  have hpi := Real.pi_gt_three
  have hk : (0 : ℝ) < 0.318309886183791 * 3.141592653589793 := by norm_num
  have h1 := mul_lt_mul_of_pos_left hA1 hk
  have h2 := mul_lt_mul_of_pos_left hA2 hk
  have hlow : Real.pi / 2 <
      0.318309886183791 * 3.141592653589793 * Real.arctan (10 ^ 16) := by
    norm_num at h1 ⊢
    linarith
  have hhigh : 0.318309886183791 * 3.141592653589793 * Real.arctan (10 ^ 16) <
      Real.pi := by
    norm_num at h2 ⊢
    linarith
  rw [← Real.tan_sub_pi]
  exact Real.tan_neg_of_neg_of_pi_div_two_lt (by linarith) (by linarith)

/-- C2, at `Interval(0, 4)` and the feasible point `x = 1`: mapping `x` to `t`
and back gives `2 - 0.318309886183791 * 3.141592653589793`, which is smaller
than `1`. -/
theorem Interval.t_to_x_x_to_t_drifts :
    Interval.construct (0 : ℝ) 4 = Except.ok { a := 0, b := 4 } ∧
      (0 : ℝ) < 1 ∧ (1 : ℝ) < 4 ∧
      Interval.t_to_x Real.arctan { a := (0 : ℝ), b := 4 } (fun _ => 0)
          (Interval.x_to_t Real.tan { a := (0 : ℝ), b := 4 } (fun _ => 0) (fun _ => 1)) 0 =
        2 - 0.318309886183791 * 3.141592653589793 ∧
      Interval.t_to_x Real.arctan { a := (0 : ℝ), b := 4 } (fun _ => 0)
          (Interval.x_to_t Real.tan { a := (0 : ℝ), b := 4 } (fun _ => 0) (fun _ => 1)) 0 <
        1 := by
  have hval : Interval.t_to_x Real.arctan { a := (0 : ℝ), b := 4 } (fun _ => 0)
      (Interval.x_to_t Real.tan { a := (0 : ℝ), b := 4 } (fun _ => 0) (fun _ => 1)) 0 =
      2 - 0.318309886183791 * 3.141592653589793 := by
    rw [Interval.t_to_x_zero, Interval.x_to_t_zero]
    simp only []
    have hpi := Real.pi_gt_three
    have harg : ((1 - 0) / (4 - 0) - 0.5 : ℝ) * 3.141592653589793 =
        -(3.141592653589793 / 4) := by norm_num
    rw [harg, Real.arctan_tan (by linarith) (by linarith)]
    norm_num
  refine ⟨?_, by norm_num, by norm_num, hval, ?_⟩
  · unfold Interval.construct
    rw [if_neg (by norm_num)]
  · rw [hval]
    norm_num

/-- C3, at `Interval(0, 10)`: mapping `t = 1` to `x` and back gives
`tan(0.318309886183791 * 3.141592653589793 * (pi / 4))`, which is larger
than `1`; mapping `t = 10 ^ 16` to `x` and back gives a negative number. -/
theorem Interval.x_to_t_t_to_x_drifts :
    Interval.construct (0 : ℝ) 10 = Except.ok { a := 0, b := 10 } ∧
      Interval.x_to_t Real.tan { a := (0 : ℝ), b := 10 } (fun _ => 0)
          (Interval.t_to_x Real.arctan { a := (0 : ℝ), b := 10 } (fun _ => 0)
            (fun _ => 1)) 0 =
        Real.tan (0.318309886183791 * 3.141592653589793 * (Real.pi / 4)) ∧
      1 < Interval.x_to_t Real.tan { a := (0 : ℝ), b := 10 } (fun _ => 0)
          (Interval.t_to_x Real.arctan { a := (0 : ℝ), b := 10 } (fun _ => 0)
            (fun _ => 1)) 0 ∧
      Interval.x_to_t Real.tan { a := (0 : ℝ), b := 10 } (fun _ => 0)
          (Interval.t_to_x Real.arctan { a := (0 : ℝ), b := 10 } (fun _ => 0)
            (fun _ => 10 ^ 16)) 0 < 0 := by
  have hval : Interval.x_to_t Real.tan { a := (0 : ℝ), b := 10 } (fun _ => 0)
      (Interval.t_to_x Real.arctan { a := (0 : ℝ), b := 10 } (fun _ => 0)
        (fun _ => 1)) 0 =
      Real.tan (0.318309886183791 * 3.141592653589793 * (Real.pi / 4)) := by
    rw [Interval.x_to_t_zero, Interval.t_to_x_zero]
    simp only []
    rw [Real.arctan_one]
    congr 1
    ring
  refine ⟨?_, hval, ?_, Interval.round_trip_large_neg⟩
  · unfold Interval.construct
    rw [if_neg (by norm_num)]
  · rw [hval]
    have hpi := Real.pi_pos
    have hprod := literal_product_gt_one
    have hprod2 : (0.318309886183791 : ℝ) * 3.141592653589793 < 2 := by norm_num
    have hlt : Real.pi / 4 <
        0.318309886183791 * 3.141592653589793 * (Real.pi / 4) := by nlinarith
    have hup : (0.318309886183791 : ℝ) * 3.141592653589793 * (Real.pi / 4) <
        Real.pi / 2 := by nlinarith
    have h := Real.tan_lt_tan_of_lt_of_lt_pi_div_two (by linarith) hup hlt
    rwa [Real.tan_pi_div_four] at h

/-- C7, at `Interval(0, 1)` and `t = 1`: the reference formula
`a + (b - a) * (atan(t) / pi + 0.5)` gives `3/4`, the code gives
`(0.318309886183791 * pi + 2) / 4`, which is larger. -/
theorem Interval.t_to_x_differs_from_reference :
    Interval.construct (0 : ℝ) 1 = Except.ok { a := 0, b := 1 } ∧
      (0 : ℝ) + (1 - 0) * (Real.arctan 1 / Real.pi + 0.5) = 3 / 4 ∧
      Interval.t_to_x Real.arctan { a := (0 : ℝ), b := 1 } (fun _ => 0) (fun _ => 1) 0 =
        (0.318309886183791 * Real.pi + 2) / 4 ∧
      (0 : ℝ) + (1 - 0) * (Real.arctan 1 / Real.pi + 0.5) <
        Interval.t_to_x Real.arctan { a := (0 : ℝ), b := 1 } (fun _ => 0) (fun _ => 1) 0 := by
  have href : (0 : ℝ) + (1 - 0) * (Real.arctan 1 / Real.pi + 0.5) = 3 / 4 := by
    rw [Real.arctan_one]
    have hpi : Real.pi ≠ 0 := Real.pi_ne_zero
    field_simp
    ring
  have hval : Interval.t_to_x Real.arctan { a := (0 : ℝ), b := 1 } (fun _ => 0)
      (fun _ => 1) 0 = (0.318309886183791 * Real.pi + 2) / 4 := by
    rw [Interval.t_to_x_zero]
    simp only []
    rw [Real.arctan_one]
    ring
  refine ⟨?_, href, hval, ?_⟩
  · unfold Interval.construct
    rw [if_neg (by norm_num)]
  · rw [href, hval]
    linarith [inv_pi_literal_gt]

/-- Limit at `+∞` of coordinate `0` of `Interval::t_to_x`. -/
theorem Interval.tendsto_t_to_x_atTop (I : Interval ℝ) (x : Nat → ℝ) :
    Filter.Tendsto (fun t : ℝ => Interval.t_to_x Real.arctan I x (fun _ => t) 0)
      Filter.atTop
      (nhds (I.a + (I.b - I.a) * (0.318309886183791 * (Real.pi / 2) + 0.5))) := by
  have h : Filter.Tendsto Real.arctan Filter.atTop (nhds (Real.pi / 2)) :=
    Real.tendsto_arctan_atTop.mono_right nhdsWithin_le_nhds
  have h2 := (((h.const_mul (0.318309886183791 : ℝ)).add_const 0.5).const_mul
    (I.b - I.a)).const_add I.a
  refine h2.congr ?_
  intro t
  rw [Interval.t_to_x_zero]

/-- Limit at `-∞` of coordinate `0` of `Interval::t_to_x`. -/
theorem Interval.tendsto_t_to_x_atBot (I : Interval ℝ) (x : Nat → ℝ) :
    Filter.Tendsto (fun t : ℝ => Interval.t_to_x Real.arctan I x (fun _ => t) 0)
      Filter.atBot
      (nhds (I.a + (I.b - I.a) * (0.318309886183791 * (-(Real.pi / 2)) + 0.5))) := by
  have h : Filter.Tendsto Real.arctan Filter.atBot (nhds (-(Real.pi / 2))) :=
    Real.tendsto_arctan_atBot.mono_right nhdsWithin_le_nhds
  have h2 := (((h.const_mul (0.318309886183791 : ℝ)).add_const 0.5).const_mul
    (I.b - I.a)).const_add I.a
  refine h2.congr ?_
  intro t
  rw [Interval.t_to_x_zero]

/-- C8, at `Interval(0, 10)`: as `t` tends to `+∞` the output tends to
`10 * (0.318309886183791 * (pi / 2) + 0.5)`, which is larger than `10`, so it
does not tend to the upper end `10`; as `t` tends to `-∞` it tends to a value
smaller than `0`, so it does not tend to the lower end `0`. -/
theorem Interval.t_to_x_limits_miss_ends :
    Filter.Tendsto
        (fun t : ℝ =>
          Interval.t_to_x Real.arctan { a := (0 : ℝ), b := 10 } (fun _ => 0) (fun _ => t) 0)
        Filter.atTop (nhds (10 * (0.318309886183791 * (Real.pi / 2) + 0.5))) ∧
      (10 : ℝ) < 10 * (0.318309886183791 * (Real.pi / 2) + 0.5) ∧
      ¬ Filter.Tendsto
        (fun t : ℝ =>
          Interval.t_to_x Real.arctan { a := (0 : ℝ), b := 10 } (fun _ => 0) (fun _ => t) 0)
        Filter.atTop (nhds 10) ∧
      Filter.Tendsto
        (fun t : ℝ =>
          Interval.t_to_x Real.arctan { a := (0 : ℝ), b := 10 } (fun _ => 0) (fun _ => t) 0)
        Filter.atBot (nhds (10 * (0.5 - 0.318309886183791 * (Real.pi / 2)))) ∧
      (10 : ℝ) * (0.5 - 0.318309886183791 * (Real.pi / 2)) < 0 ∧
      ¬ Filter.Tendsto
        (fun t : ℝ =>
          Interval.t_to_x Real.arctan { a := (0 : ℝ), b := 10 } (fun _ => 0) (fun _ => t) 0)
        Filter.atBot (nhds 0) := by
  have hc := inv_pi_literal_gt
  have htop := Interval.tendsto_t_to_x_atTop { a := (0 : ℝ), b := 10 } (fun _ => 0)
  have hbot := Interval.tendsto_t_to_x_atBot { a := (0 : ℝ), b := 10 } (fun _ => 0)
  have e1 : (0 : ℝ) + (10 - 0) * (0.318309886183791 * (Real.pi / 2) + 0.5) =
      10 * (0.318309886183791 * (Real.pi / 2) + 0.5) := by ring
  have e2 : (0 : ℝ) + (10 - 0) * (0.318309886183791 * (-(Real.pi / 2)) + 0.5) =
      10 * (0.5 - 0.318309886183791 * (Real.pi / 2)) := by ring
  simp only [] at htop hbot
  rw [e1] at htop
  rw [e2] at hbot
  have hgt : (10 : ℝ) < 10 * (0.318309886183791 * (Real.pi / 2) + 0.5) := by
    norm_num; linarith
  have hlt : (10 : ℝ) * (0.5 - 0.318309886183791 * (Real.pi / 2)) < 0 := by
    norm_num; linarith
  refine ⟨htop, hgt, ?_, hbot, hlt, ?_⟩
  · intro h
    exact absurd (tendsto_nhds_unique htop h) (ne_of_gt hgt)
  · intro h
    exact absurd (tendsto_nhds_unique hbot h) (ne_of_lt hlt)

/-! ## `GreaterThanZero`: squares and square roots -/

/-- An index below an `int` dimension is below the converted loop bound. -/
theorem lt_int_to_size_t (d : Int) (hd : d < 2 ^ 31) (i : Nat) (hi : (i : Int) < d) :
    i < int_to_size_t d := by
  rw [int_to_size_t_of_nonneg d (by omega) hd]; omega

/-- Coordinate `i` of `GreaterThanZero::x_to_t`, for `i` below the converted
dimension. -/
theorem GreaterThanZero.x_to_t_sqrt {R : Type} (sqrt : R → R) (G : GreaterThanZero)
    (t x : Nat → R) (i : Nat) (hi : i < int_to_size_t G.dimension) :
    GreaterThanZero.x_to_t sqrt G t x i = sqrt (x i) := by
  unfold GreaterThanZero.x_to_t
  rw [GreaterThanZero.sqrt_loop_apply, if_pos hi]

/-- Exact arithmetic: for an `int` dimension `d`, every real input `t` and every `i` in
`[0, d)`, the output of `t_to_x` has `x[i] = t[i] * t[i] >= 0`, and `x[i] = 0`
exactly when `t[i] = 0`. -/
theorem GreaterThanZero.t_to_x_nonneg_real (d : Int) (hd : d < 2 ^ 31) (x t : Nat → ℝ)
    (i : Nat) (hi : (i : Int) < d) :
    GreaterThanZero.t_to_x (GreaterThanZero.construct d) x t i = t i * t i ∧
      0 ≤ GreaterThanZero.t_to_x (GreaterThanZero.construct d) x t i ∧
      (GreaterThanZero.t_to_x (GreaterThanZero.construct d) x t i = 0 ↔ t i = 0) := by
  have hb : i < int_to_size_t (GreaterThanZero.construct d).dimension :=
    lt_int_to_size_t d hd i hi
  rw [GreaterThanZero.t_to_x_square _ x t i hb]
  exact ⟨rfl, mul_self_nonneg (t i), mul_self_eq_zero⟩

/-- Exact arithmetic: for an `int` dimension `d` and a feasible `x` (`x[i] >= 0` on
`[0, d)`), `t_to_x` applied to the output of `x_to_t(x)` returns `x[i]` at every
coordinate `i` of `[0, d)`, and every such coordinate of `x_to_t(x)` is
`>= 0`. -/
theorem GreaterThanZero.t_to_x_x_to_t_real (d : Int) (hd : d < 2 ^ 31) (x : Nat → ℝ)
    (hx : ∀ i : Nat, (i : Int) < d → 0 ≤ x i) (xbuf tbuf : Nat → ℝ) :
    ∀ i : Nat, (i : Int) < d →
      GreaterThanZero.t_to_x (GreaterThanZero.construct d) xbuf
        (GreaterThanZero.x_to_t Real.sqrt (GreaterThanZero.construct d) tbuf x) i = x i ∧
      0 ≤ GreaterThanZero.x_to_t Real.sqrt (GreaterThanZero.construct d) tbuf x i := by
  intro i hi
  have hb : i < int_to_size_t (GreaterThanZero.construct d).dimension :=
    lt_int_to_size_t d hd i hi
  rw [GreaterThanZero.t_to_x_square _ xbuf _ i hb,
    GreaterThanZero.x_to_t_sqrt Real.sqrt _ tbuf x i hb]
  exact ⟨Real.mul_self_sqrt (hx i hi), Real.sqrt_nonneg (x i)⟩

namespace Double

theorem sqrtMag_two : sqrtMag 2 = 6369051672525773 / 4503599627370496 := by
  have h1 : Int.log 2 (2 : ℚ) / 2 - 52 = -52 := by decide!
  have h2 : (2 : ℚ) / (4 : ℚ) ^ (-52 : Int) =
      ((40564819207303340847894502572032 : Nat) : ℚ) := by
    norm_num
  have h3 : Nat.sqrt 40564819207303340847894502572032 = 6369051672525772 :=
    (Nat.eq_sqrt.mpr ⟨by norm_num, by norm_num⟩).symm
  simp only [sqrtMag, h1, h2, Int.floor_natCast, Int.toNat_ofNat, h3]
  norm_num

theorem sqrtMag_four : sqrtMag 4 = 2 := by
  have h1 : Int.log 2 (4 : ℚ) / 2 - 52 = -51 := by decide!
  have h2 : (4 : ℚ) / (4 : ℚ) ^ (-51 : Int) =
      ((20282409603651670423947251286016 : Nat) : ℚ) := by
    norm_num
  have h3 : Nat.sqrt 20282409603651670423947251286016 = 4503599627370496 :=
    (Nat.eq_sqrt.mpr ⟨by norm_num, by norm_num⟩).symm
  simp only [sqrtMag, h1, h2, Int.floor_natCast, Int.toNat_ofNat, h3]
  norm_num

/-- The binary64 square root of `2` is `1.4142135623730951`. -/
theorem sqrt_two : sqrt (fin 2) = fin (6369051672525773 / 4503599627370496) := by
  simp [sqrt, sqrtMag_two]

theorem sqrt_four : sqrt (fin 4) = fin 2 := by
  simp [sqrt, sqrtMag_four]

/-- The square of `1.4142135623730951` rounds to `2.0000000000000004`. -/
theorem sqrt_two_sq :
    fin (6369051672525773 / 4503599627370496) * fin (6369051672525773 / 4503599627370496) =
      fin (2 + 1 / 2251799813685248) := by decide!

theorem two_mul_two : fin 2 * fin 2 = fin 4 := by decide!

theorem sqrtMag_nonneg (q : ℚ) : 0 ≤ sqrtMag q := by
  simp only [sqrtMag]
  exact mul_nonneg (Nat.cast_nonneg _) (le_of_lt (two_zpow_pos _))

/-- The square root of a non-negative number is non-negative. -/
theorem sqrt_nonneg {x : Double} (hx : fin 0 ≤ x) : fin 0 ≤ sqrt x := by
  cases x with
  | nan => exact absurd hx (not_le_nan _)
  | inf s =>
    have hs : s = false := by
      rw [le_def] at hx
      simpa [ble] using hx
    subst hs
    rw [le_def]; rfl
  | fin q =>
    have hq : 0 ≤ q := (fin_le_fin 0 q).mp hx
    show fin 0 ≤ (if q < 0 then nan else if q = 0 then fin 0 else fin (sqrtMag q))
    rw [if_neg (not_lt.mpr hq)]
    split_ifs
    · exact le_refl_of_ne_nan (by simp)
    · rw [fin_le_fin]; exact sqrtMag_nonneg q

/-- A square is non-negative, unless it is a NaN. -/
theorem mul_self_nonneg_of_ne_nan {x : Double} (hx : x ≠ nan) : fin 0 ≤ x * x := by
  cases x with
  | nan => exact absurd rfl hx
  | inf s =>
    rw [inf_mul_inf, le_def]
    cases s <;> rfl
  | fin p =>
    rw [fin_mul_fin, ← round_zero]
    exact round_mono (mul_self_nonneg p)

/-- The square of `2 ^ (-600)` underflows to zero. -/
theorem tiny_sq :
    fin ((2 : ℚ) ^ (-600 : Int)) * fin ((2 : ℚ) ^ (-600 : Int)) = fin 0 := by
  rw [fin_mul_fin]
  apply round_underflow
  · exact mul_pos (two_zpow_pos _) (two_zpow_pos _)
  · rw [← zpow_add₀ (by norm_num : (2 : ℚ) ≠ 0)]
    exact zpow_lt_zpow_right₀ (by norm_num) (by norm_num)

theorem tiny_ne_zero : fin ((2 : ℚ) ^ (-600 : Int)) ≠ fin 0 := by
  intro h
  injection h with h
  exact absurd h (ne_of_gt (two_zpow_pos _))

end Double

/-- Index `0` is below the converted dimension of `GreaterThanZero(1)`. -/
theorem zero_lt_size_one :
    (0 : Nat) < int_to_size_t (GreaterThanZero.construct 1).dimension :=
  lt_int_to_size_t 1 (by norm_num) 0 (by decide)

/-- C13, at `GreaterThanZero(1)` and `t = [2 ^ (-600)]`: the input is not
zero, and `t_to_x` writes `0`, because the square underflows. -/
theorem GreaterThanZero.t_to_x_zero_of_nonzero :
    Double.fin ((2 : ℚ) ^ (-600 : Int)) ≠ 0 ∧
      GreaterThanZero.t_to_x (GreaterThanZero.construct 1) (fun _ => (7 : Double))
        (fun _ => Double.fin ((2 : ℚ) ^ (-600 : Int))) 0 = 0 := by
  rw [Double.zero_eq]
  refine ⟨Double.tiny_ne_zero, ?_⟩
  rw [GreaterThanZero.t_to_x_square _ _ _ 0 zero_lt_size_one, Double.tiny_sq]

/-- C13, amended.  For an `int` dimension `d` and every `i` in `[0, d)`, the
output of `t_to_x` has `x[i] = t[i] * t[i]`.  In binary64 it is `>= 0` unless
`t[i]` is a NaN, and it is `0` when `t[i] = 0`.  In exact real arithmetic it
is `>= 0`, and `0` exactly when `t[i] = 0`. -/
theorem GreaterThanZero.t_to_x_nonneg :
    (∀ (d : Int), d < 2 ^ 31 → ∀ (x t : Nat → Double) (i : Nat), (i : Int) < d →
      GreaterThanZero.t_to_x (GreaterThanZero.construct d) x t i = t i * t i ∧
        (t i ≠ Double.nan →
          (0 : Double) ≤ GreaterThanZero.t_to_x (GreaterThanZero.construct d) x t i) ∧
        (t i = 0 → GreaterThanZero.t_to_x (GreaterThanZero.construct d) x t i = 0)) ∧
      (∀ (d : Int), d < 2 ^ 31 → ∀ (x t : Nat → ℝ) (i : Nat), (i : Int) < d →
        GreaterThanZero.t_to_x (GreaterThanZero.construct d) x t i = t i * t i ∧
          0 ≤ GreaterThanZero.t_to_x (GreaterThanZero.construct d) x t i ∧
          (GreaterThanZero.t_to_x (GreaterThanZero.construct d) x t i = 0 ↔ t i = 0)) := by
  refine ⟨?_, ?_⟩
  · intro d hd x t i hi
    have hb : i < int_to_size_t (GreaterThanZero.construct d).dimension :=
      lt_int_to_size_t d hd i hi
    rw [GreaterThanZero.t_to_x_square _ x t i hb]
    refine ⟨rfl, ?_, ?_⟩
    · intro hne
      rw [Double.zero_eq]
      exact Double.mul_self_nonneg_of_ne_nan hne
    · intro h0
      rw [h0]
      decide!
  · intro d hd x t i hi
    exact GreaterThanZero.t_to_x_nonneg_real d hd x t i hi

/-- C13 amended, applied at dimension `3`, coordinate `2`, `t = [-2, -2, -2]`,
in binary64 and over the reals. -/
theorem GreaterThanZero.t_to_x_nonneg_witness :
    (3 : Int) < 2 ^ 31 ∧ ((2 : Nat) : Int) < 3 ∧ (-2 : Double) ≠ Double.nan ∧
      (0 : Double) ≤ GreaterThanZero.t_to_x (GreaterThanZero.construct 3)
        (fun _ => (7 : Double)) (fun _ => -2) 2 ∧
      GreaterThanZero.t_to_x (GreaterThanZero.construct 3) (fun _ => (7 : ℝ))
        (fun _ => -2) 2 = -2 * -2 :=
  ⟨by norm_num, by decide, by decide!,
    (GreaterThanZero.t_to_x_nonneg.1 3 (by norm_num) (fun _ => (7 : Double))
      (fun _ => -2) 2 (by decide)).2.1 (by decide!),
    (GreaterThanZero.t_to_x_nonneg.2 3 (by norm_num) (fun _ => (7 : ℝ))
      (fun _ => -2) 2 (by decide)).1⟩

/-- C19, at `GreaterThanZero(1)` and the feasible point `x = [2]`: the root
is `1.4142135623730951`, and its square rounds to `2 + 2 ^ (-51)`
(`2.0000000000000004`), not to `2`. -/
theorem GreaterThanZero.sqrt_then_square_misses :
    (0 : Double) ≤ Double.fin 2 ∧
      GreaterThanZero.t_to_x (GreaterThanZero.construct 1) (fun _ => 0)
        (GreaterThanZero.x_to_t Double.sqrt (GreaterThanZero.construct 1) (fun _ => 0)
          (fun _ => Double.fin 2)) 0 = Double.fin (2 + 1 / 2251799813685248) ∧
      Double.fin (2 + 1 / 2251799813685248) ≠ Double.fin 2 := by
  refine ⟨by decide!, ?_, by decide!⟩
  rw [GreaterThanZero.t_to_x_square _ _ _ 0 zero_lt_size_one,
    GreaterThanZero.x_to_t_sqrt Double.sqrt _ _ _ 0 zero_lt_size_one, Double.sqrt_two,
    Double.sqrt_two_sq]

/-- C19, amended.  For an `int` dimension `d` and every `i` in `[0, d)`,
`t_to_x` applied to the output of `x_to_t(x)` returns
`sqrt(x[i]) * sqrt(x[i])`.  In binary64 this is the rounded square of the
rounded root (it is `x[i]` for instance at `x[i] = 4`), and coordinate `i` of
`x_to_t(x)` is `>= 0` whenever `x[i] >= 0`.  In exact real arithmetic the
result is `x[i]` for every `x[i] >= 0`, and coordinate `i` of `x_to_t(x)` is
`>= 0`. -/
theorem GreaterThanZero.t_to_x_x_to_t :
    (∀ (d : Int), d < 2 ^ 31 → ∀ (x xbuf tbuf : Nat → Double) (i : Nat), (i : Int) < d →
      GreaterThanZero.t_to_x (GreaterThanZero.construct d) xbuf
        (GreaterThanZero.x_to_t Double.sqrt (GreaterThanZero.construct d) tbuf x) i =
          Double.sqrt (x i) * Double.sqrt (x i) ∧
      ((0 : Double) ≤ x i →
        (0 : Double) ≤
          GreaterThanZero.x_to_t Double.sqrt (GreaterThanZero.construct d) tbuf x i)) ∧
      (∀ xbuf tbuf : Nat → Double,
        GreaterThanZero.t_to_x (GreaterThanZero.construct 1) xbuf
          (GreaterThanZero.x_to_t Double.sqrt (GreaterThanZero.construct 1) tbuf
            (fun _ => Double.fin 4)) 0 = Double.fin 4) ∧
      (∀ (d : Int), d < 2 ^ 31 → ∀ x : Nat → ℝ, (∀ i : Nat, (i : Int) < d → 0 ≤ x i) →
        ∀ (xbuf tbuf : Nat → ℝ) (i : Nat), (i : Int) < d →
          GreaterThanZero.t_to_x (GreaterThanZero.construct d) xbuf
            (GreaterThanZero.x_to_t Real.sqrt (GreaterThanZero.construct d) tbuf x) i = x i ∧
          0 ≤ GreaterThanZero.x_to_t Real.sqrt (GreaterThanZero.construct d) tbuf x i) := by
  refine ⟨?_, ?_, ?_⟩
  · intro d hd x xbuf tbuf i hi
    have hb : i < int_to_size_t (GreaterThanZero.construct d).dimension :=
      lt_int_to_size_t d hd i hi
    rw [GreaterThanZero.t_to_x_square _ xbuf _ i hb,
      GreaterThanZero.x_to_t_sqrt Double.sqrt _ tbuf x i hb]
    refine ⟨rfl, ?_⟩
    intro hx
    rw [Double.zero_eq] at hx ⊢
    exact Double.sqrt_nonneg hx
  · intro xbuf tbuf
    rw [GreaterThanZero.t_to_x_square _ _ _ 0 zero_lt_size_one,
      GreaterThanZero.x_to_t_sqrt Double.sqrt _ _ _ 0 zero_lt_size_one, Double.sqrt_four,
      Double.two_mul_two]
  · intro d hd x hx xbuf tbuf i hi
    exact GreaterThanZero.t_to_x_x_to_t_real d hd x hx xbuf tbuf i hi

/-- C19 amended, applied at dimension `2`, coordinate `0`: `x = [2, 2]` over
the reals, and `x = [4, 4]` in binary64. -/
theorem GreaterThanZero.t_to_x_x_to_t_witness :
    (2 : Int) < 2 ^ 31 ∧ (∀ i : Nat, (i : Int) < 2 → (0 : ℝ) ≤ (fun _ => 2) i) ∧
      ((0 : Nat) : Int) < 2 ∧
      GreaterThanZero.t_to_x (GreaterThanZero.construct 2) (fun _ => 0)
        (GreaterThanZero.x_to_t Real.sqrt (GreaterThanZero.construct 2) (fun _ => 0)
          (fun _ => (2 : ℝ))) 0 = 2 ∧
      (0 : Double) ≤ Double.fin 4 ∧
      (0 : Double) ≤
        GreaterThanZero.x_to_t Double.sqrt (GreaterThanZero.construct 2) (fun _ => 0)
          (fun _ => Double.fin 4) 0 :=
  ⟨by norm_num, fun _ _ => by norm_num, by decide,
    (GreaterThanZero.t_to_x_x_to_t.2.2 2 (by norm_num) (fun _ => 2)
      (fun _ _ => by norm_num) (fun _ => 0) (fun _ => 0) 0 (by decide)).1,
    by decide!,
    (GreaterThanZero.t_to_x_x_to_t.1 2 (by norm_num) (fun _ => Double.fin 4) (fun _ => 0)
      (fun _ => 0) 0 (by decide)).2 (by decide!)⟩

/-! ## Dimensions -/

/-- C16: `GreaterThanZero(d)` reports `d` as both dimensions for every `int`
`d`; a constructed `Box(d, lower, upper)` reports `d` as both dimensions; a
constructed `Interval` reports `1` as both dimensions; `d = 4` reports `4`. -/
theorem dimension_reporting :
    (∀ d : Int,
      GreaterThanZero.x_dimension (GreaterThanZero.construct d) = d ∧
        GreaterThanZero.t_dimension (GreaterThanZero.construct d) = d) ∧
      (∀ (d : Int) (lo up : Nat → ℝ) (B : Box ℝ),
        Box.construct d lo up = Except.ok B →
          Box.x_dimension B = d ∧ Box.t_dimension B = d) ∧
      (∀ (a b : ℝ) (I : Interval ℝ),
        Interval.construct a b = Except.ok I →
          Interval.x_dimension I = 1 ∧ Interval.t_dimension I = 1) ∧
      GreaterThanZero.x_dimension (GreaterThanZero.construct 4) = 4 ∧
      GreaterThanZero.t_dimension (GreaterThanZero.construct 4) = 4 ∧
      (∀ B : Box ℝ,
        Box.construct 4 (fun _ => (0 : ℝ)) (fun _ => 1) = Except.ok B →
          Box.x_dimension B = 4 ∧ Box.t_dimension B = 4) := by
  have hbox : ∀ (d : Int) (lo up : Nat → ℝ) (B : Box ℝ),
      Box.construct d lo up = Except.ok B →
        Box.x_dimension B = d ∧ Box.t_dimension B = d := by
    intro d lo up B hB
    obtain ⟨hBeq, _⟩ := Box.constructed_axes_ordered d lo up B hB
    subst hBeq
    exact ⟨rfl, rfl⟩
  refine ⟨fun d => ⟨rfl, rfl⟩, hbox, ?_, rfl, rfl, ?_⟩
  · intro a b I _
    exact ⟨rfl, rfl⟩
  · intro B hB
    exact hbox 4 _ _ B hB

/-- C16, applied at the box `[0, 1]^4` and at `Interval(1, 2)`. -/
theorem dimension_reporting_witness :
    Box.construct 4 (fun _ => (0 : ℝ)) (fun _ => 1) =
        Except.ok { dimension := 4, a := fun _ => 0, b := fun _ => 1 } ∧
      Box.x_dimension ({ dimension := 4, a := fun _ => 0, b := fun _ => 1 } : Box ℝ) = 4 ∧
      Interval.construct (1 : ℝ) 2 = Except.ok { a := 1, b := 2 } ∧
      Interval.t_dimension ({ a := 1, b := 2 } : Interval ℝ) = 1 :=
  have hb : Box.construct 4 (fun _ => (0 : ℝ)) (fun _ => 1) =
      Except.ok { dimension := 4, a := fun _ => 0, b := fun _ => 1 } := by
    norm_num [Box.construct, Box.construct_loop]
  have hi : Interval.construct (1 : ℝ) 2 = Except.ok { a := 1, b := 2 } := by
    norm_num [Interval.construct]
  ⟨hb, (dimension_reporting.2.1 4 _ _ _ hb).1, hi,
    (dimension_reporting.2.2.1 1 2 _ hi).2⟩

/-! ## Domain of `Interval::x_to_t` -/

/-- Exact arithmetic: for a constructed `Interval` and `a < x[0] < b`, the divisor `b - a`
is non-zero, the tangent argument
`((x[0] - a) / (b - a) - 0.5) * 3.141592653589793` lies strictly between
`-pi/2` and `pi/2`, its cosine is non-zero, and `x_to_t` writes the tangent of
that argument, which is the quotient of its sine and its cosine. -/
theorem Interval.x_to_t_well_defined_real (a b : ℝ) (I : Interval ℝ)
    (hI : Interval.construct a b = Except.ok I) (x : Nat → ℝ)
    (hax : a < x 0) (hxb : x 0 < b) (tbuf : Nat → ℝ) :
    I.b - I.a ≠ 0 ∧
      -(Real.pi / 2) < ((x 0 - I.a) / (I.b - I.a) - 0.5) * 3.141592653589793 ∧
      ((x 0 - I.a) / (I.b - I.a) - 0.5) * 3.141592653589793 < Real.pi / 2 ∧
      Real.cos (((x 0 - I.a) / (I.b - I.a) - 0.5) * 3.141592653589793) ≠ 0 ∧
      Interval.x_to_t Real.tan I tbuf x 0 =
        Real.sin (((x 0 - I.a) / (I.b - I.a) - 0.5) * 3.141592653589793) /
          Real.cos (((x 0 - I.a) / (I.b - I.a) - 0.5) * 3.141592653589793) := by
  obtain ⟨hIeq, hab⟩ := Interval.constructed_ordered a b I hI
  subst hIeq
  simp only []
  have hba : 0 < b - a := sub_pos.mpr hab
  have hs0 : 0 < (x 0 - a) / (b - a) := div_pos (sub_pos.mpr hax) hba
  have hs1 : (x 0 - a) / (b - a) < 1 := by
    rw [div_lt_one hba]; linarith
  have hpi := Real.pi_gt_d20
  have hlow : -(Real.pi / 2) < ((x 0 - a) / (b - a) - 0.5) * 3.141592653589793 := by
    have h1 : (-0.5 : ℝ) * 3.141592653589793 <
        ((x 0 - a) / (b - a) - 0.5) * 3.141592653589793 := by
      apply mul_lt_mul_of_pos_right _ (by norm_num)
      linarith
    norm_num at h1 ⊢
    linarith
  have hhigh : ((x 0 - a) / (b - a) - 0.5) * 3.141592653589793 < Real.pi / 2 := by
    have h1 : ((x 0 - a) / (b - a) - 0.5) * 3.141592653589793 <
        (0.5 : ℝ) * 3.141592653589793 := by
      apply mul_lt_mul_of_pos_right _ (by norm_num)
      linarith
    norm_num at h1 ⊢
    linarith
  have hcos : 0 < Real.cos (((x 0 - a) / (b - a) - 0.5) * 3.141592653589793) :=
    Real.cos_pos_of_mem_Ioo ⟨hlow, hhigh⟩
  refine ⟨ne_of_gt hba, hlow, hhigh, ne_of_gt hcos, ?_⟩
  rw [Interval.x_to_t_zero, Real.tan_eq_sin_div_cos]

namespace Double

/-- A number between two finite numbers is finite, and lies between them. -/
theorem fin_of_between {x : Double} {lo hi : ℚ} (h1 : fin lo ≤ x) (h2 : x ≤ fin hi) :
    ∃ m, x = fin m ∧ lo ≤ m ∧ m ≤ hi := by
  cases x with
  | nan => exact absurd h1 (not_le_nan _)
  | inf s =>
    rw [le_def] at h1 h2
    cases s <;> simp [ble] at h1 h2
  | fin m => exact ⟨m, rfl, (fin_le_fin lo m).mp h1, (fin_le_fin m hi).mp h2⟩

/-- An exact result between two binary64 numbers rounds to a finite number
between them. -/
theorem round_between {q lo hi : ℚ} (hlo : round lo = fin lo) (hhi : round hi = fin hi)
    (h1 : lo ≤ q) (h2 : q ≤ hi) : ∃ m, round q = fin m ∧ lo ≤ m ∧ m ≤ hi := by
  apply fin_of_between
  · rw [← hlo]; exact round_mono h1
  · rw [← hhi]; exact round_mono h2

theorem round_one : round 1 = fin 1 := by decide!

theorem round_half : round (1 / 2) = fin (1 / 2) := by decide!

theorem round_neg_half : round (-(1 / 2)) = fin (-(1 / 2)) := by decide!

/-- Half of the literal `3.141592653589793` is a binary64 number. -/
theorem round_half_c2 :
    round (1 / 2 * (884279719003555 / 281474976710656)) =
      fin (1 / 2 * (884279719003555 / 281474976710656)) := by decide!

theorem round_neg_half_c2 :
    round (-(1 / 2 * (884279719003555 / 281474976710656))) =
      fin (-(1 / 2 * (884279719003555 / 281474976710656))) := by decide!

/-- In binary64, for finite `a < x < b` whose rounded width `b - a` is finite
and positive, the tangent argument of `x_to_t` is finite and at most half of
the literal `3.141592653589793` in absolute value. -/
theorem tan_argument_bounded (qa qb qx w : ℚ) (hax : qa < qx) (hxb : qx < qb)
    (hw : 0 < w) (hsub : fin qb - fin qa = fin w) :
    ∃ r : ℚ,
      ((fin qx - fin qa) / (fin qb - fin qa) - 0.5) * 3.141592653589793 = fin r ∧
        -(1 / 2 * (884279719003555 / 281474976710656)) ≤ r ∧
        r ≤ 1 / 2 * (884279719003555 / 281474976710656) := by
  rw [hsub]
  rw [fin_sub_fin] at hsub
  -- the numerator
  have hn : ∃ n, round (qx - qa) = fin n ∧ 0 ≤ n ∧ n ≤ w := by
    apply fin_of_between
    · rw [← round_zero]; exact round_mono (by linarith)
    · rw [← hsub]; exact round_mono (by linarith)
  obtain ⟨n, hn, hn0, hnw⟩ := hn
  rw [fin_sub_fin, hn, fin_div_fin n w (ne_of_gt hw)]
  -- the quotient
  have hq0 : 0 ≤ n / w := div_nonneg hn0 (le_of_lt hw)
  have hq1 : n / w ≤ 1 := by rw [div_le_one hw]; exact hnw
  obtain ⟨u, hu, hu0, hu1⟩ := round_between round_zero round_one hq0 hq1
  rw [hu, half_eq, fin_sub_fin]
  -- minus one half
  obtain ⟨v, hv, hv0, hv1⟩ :=
    round_between (q := u - 1 / 2) round_neg_half round_half (by linarith) (by linarith)
  rw [hv, c2_eq, fin_mul_fin]
  -- times the literal
  have hc : (0 : ℚ) < 884279719003555 / 281474976710656 := by norm_num
  obtain ⟨r, hr, hr0, hr1⟩ :=
    round_between (q := v * (884279719003555 / 281474976710656)) round_neg_half_c2
      round_half_c2
      (by nlinarith) (by nlinarith)
  exact ⟨r, hr, hr0, hr1⟩

/-- The bounds `(-3 * 2 ^ 1022, 3 * 2 ^ 1022)` pass the test of the
constructor. -/
theorem wide_bounds_ordered :
    ¬ (fin (3 * (2 : ℚ) ^ (1022 : Int)) ≤ fin (-(3 * (2 : ℚ) ^ (1022 : Int)))) := by
  rw [fin_le_fin]
  linarith [two_zpow_pos 1022]

theorem two_zpow_1023 : (2 : ℚ) ^ (1023 : Int) = (2 : ℚ) ^ (1022 : Int) * 2 := by
  rw [show (1023 : Int) = 1022 + 1 by norm_num, zpow_add_one₀ (by norm_num : (2 : ℚ) ≠ 0)]

theorem two_zpow_1024 : (2 : ℚ) ^ (1024 : Int) = (2 : ℚ) ^ (1022 : Int) * 4 := by
  rw [show (1024 : Int) = 1022 + 1 + 1 by norm_num,
    zpow_add_one₀ (by norm_num : (2 : ℚ) ≠ 0), zpow_add_one₀ (by norm_num : (2 : ℚ) ≠ 0)]
  ring

/-- For `x = 2 ^ 1023` in `(-3 * 2 ^ 1022, 3 * 2 ^ 1022)` both `x - a` and
`b - a` overflow, and the tangent argument is a NaN. -/
theorem wide_argument_nan :
    ((fin ((2 : ℚ) ^ (1023 : Int)) - fin (-(3 * (2 : ℚ) ^ (1022 : Int)))) /
        (fin (3 * (2 : ℚ) ^ (1022 : Int)) - fin (-(3 * (2 : ℚ) ^ (1022 : Int)))) - 0.5) *
      3.141592653589793 = nan := by
  have h1 : fin ((2 : ℚ) ^ (1023 : Int)) - fin (-(3 * (2 : ℚ) ^ (1022 : Int))) =
      inf false := by
    rw [fin_sub_fin]
    apply round_overflow
    rw [two_zpow_1024, two_zpow_1023]
    linarith [two_zpow_pos 1022]
  have h2 : fin (3 * (2 : ℚ) ^ (1022 : Int)) - fin (-(3 * (2 : ℚ) ^ (1022 : Int))) =
      inf false := by
    rw [fin_sub_fin]
    apply round_overflow
    rw [two_zpow_1024]
    linarith [two_zpow_pos 1022]
  rw [h1, h2]
  rfl

end Double

/-- C18, at `Interval(-3 * 2 ^ 1022, 3 * 2 ^ 1022)` (bounds
`∓1.348269851146737e308`) and `x = [2 ^ 1023]` (`8.98846567431158e307`): the
interval is constructed and `a < x < b`, but `x - a` and `b - a` both
overflow to `+∞`, so the tangent argument is `∞ / ∞`, a NaN, not a number
between `-pi/2` and `pi/2`; `x_to_t` returns the tangent of a NaN. -/
theorem Interval.x_to_t_argument_nan :
    Interval.construct (Double.fin (-(3 * (2 : ℚ) ^ (1022 : Int))))
        (Double.fin (3 * (2 : ℚ) ^ (1022 : Int))) =
      Except.ok { a := Double.fin (-(3 * (2 : ℚ) ^ (1022 : Int))),
                  b := Double.fin (3 * (2 : ℚ) ^ (1022 : Int)) } ∧
      Double.fin (-(3 * (2 : ℚ) ^ (1022 : Int))) < Double.fin ((2 : ℚ) ^ (1023 : Int)) ∧
      Double.fin ((2 : ℚ) ^ (1023 : Int)) < Double.fin (3 * (2 : ℚ) ^ (1022 : Int)) ∧
      ((Double.fin ((2 : ℚ) ^ (1023 : Int)) - Double.fin (-(3 * (2 : ℚ) ^ (1022 : Int)))) /
          (Double.fin (3 * (2 : ℚ) ^ (1022 : Int)) -
            Double.fin (-(3 * (2 : ℚ) ^ (1022 : Int)))) - 0.5) *
        3.141592653589793 = Double.nan ∧
      (∀ (tan : Double → Double) (tbuf : Nat → Double),
        Interval.x_to_t tan
          { a := Double.fin (-(3 * (2 : ℚ) ^ (1022 : Int))),
            b := Double.fin (3 * (2 : ℚ) ^ (1022 : Int)) } tbuf
          (fun _ => Double.fin ((2 : ℚ) ^ (1023 : Int))) 0 = tan Double.nan) := by
  refine ⟨?_, ?_, ?_, Double.wide_argument_nan, ?_⟩
  · unfold Interval.construct
    rw [if_neg Double.wide_bounds_ordered]
  · rw [Double.fin_lt_fin]
    linarith [Double.two_zpow_pos 1022, Double.two_zpow_pos 1023]
  · rw [Double.fin_lt_fin, Double.two_zpow_1023]
    linarith [Double.two_zpow_pos 1022]
  · intro tan tbuf
    rw [Interval.x_to_t_zero]
    simp only []
    rw [Double.wide_argument_nan]

/-- C18, amended.  In binary64, for a constructed `Interval` with finite
bounds whose rounded width `b - a` is finite (no overflow) and positive, and
for every finite `x` with `a < x < b`, the tangent argument
`((x - a) / (b - a) - 0.5) * 3.141592653589793` is a finite number of absolute
value at most half the literal, hence strictly between `-pi/2` and `pi/2`,
where the cosine is non-zero; `x_to_t` writes the tangent of that argument.
In exact real arithmetic the same holds for every constructed `Interval` and
every `a < x < b`, the divisor `b - a` being non-zero. -/
theorem Interval.x_to_t_well_defined :
    (∀ (qa qb qx w : ℚ) (I : Interval Double),
      Interval.construct (Double.fin qa) (Double.fin qb) = Except.ok I →
      qa < qx → qx < qb → 0 < w → I.b - I.a = Double.fin w →
        ∃ r : ℚ,
          ((Double.fin qx - I.a) / (I.b - I.a) - 0.5) * 3.141592653589793 = Double.fin r ∧
            -(Real.pi / 2) < (r : ℝ) ∧ (r : ℝ) < Real.pi / 2 ∧ Real.cos (r : ℝ) ≠ 0 ∧
            ∀ (tan : Double → Double) (tbuf : Nat → Double),
              Interval.x_to_t tan I tbuf (fun _ => Double.fin qx) 0 = tan (Double.fin r)) ∧
      (∀ (a b : ℝ) (I : Interval ℝ), Interval.construct a b = Except.ok I →
        ∀ (x : Nat → ℝ), a < x 0 → x 0 < b → ∀ tbuf : Nat → ℝ,
          I.b - I.a ≠ 0 ∧
            -(Real.pi / 2) < ((x 0 - I.a) / (I.b - I.a) - 0.5) * 3.141592653589793 ∧
            ((x 0 - I.a) / (I.b - I.a) - 0.5) * 3.141592653589793 < Real.pi / 2 ∧
            Real.cos (((x 0 - I.a) / (I.b - I.a) - 0.5) * 3.141592653589793) ≠ 0 ∧
            Interval.x_to_t Real.tan I tbuf x 0 =
              Real.sin (((x 0 - I.a) / (I.b - I.a) - 0.5) * 3.141592653589793) /
                Real.cos (((x 0 - I.a) / (I.b - I.a) - 0.5) * 3.141592653589793)) := by
  refine ⟨?_, fun a b I hI x hax hxb tbuf =>
    Interval.x_to_t_well_defined_real a b I hI x hax hxb tbuf⟩
  intro qa qb qx w I hI hax hxb hw hsub
  obtain ⟨hIeq, -⟩ := Interval.constructed _ _ I hI
  subst hIeq
  simp only [] at hsub ⊢
  obtain ⟨r, hr, hr0, hr1⟩ := Double.tan_argument_bounded qa qb qx w hax hxb hw hsub
  have hpi := Real.pi_gt_d20
  have hr0' := (Rat.cast_le (K := ℝ)).mpr hr0
  have hr1' := (Rat.cast_le (K := ℝ)).mpr hr1
  push_cast at hr0' hr1'
  have hlow : -(Real.pi / 2) < (r : ℝ) := by
    norm_num at hr0' hpi ⊢
    linarith
  have hhigh : (r : ℝ) < Real.pi / 2 := by
    norm_num at hr1' hpi ⊢
    linarith
  refine ⟨r, hr, hlow, hhigh, ne_of_gt (Real.cos_pos_of_mem_Ioo ⟨hlow, hhigh⟩), ?_⟩
  intro tan tbuf
  rw [Interval.x_to_t_zero]
  simp only []
  rw [hr]

/-- C18 amended, applied in binary64 at `Interval(0, 4)`, `x = [1]`, and over
the reals at `Interval(0, 4)`, `x = [1]`. -/
theorem Interval.x_to_t_well_defined_witness :
    Interval.construct (Double.fin 0) (Double.fin 4) =
        Except.ok { a := Double.fin 0, b := Double.fin 4 } ∧
      (0 : ℚ) < 1 ∧ (1 : ℚ) < 4 ∧ (0 : ℚ) < 4 ∧
      Double.fin 4 - Double.fin 0 = Double.fin 4 ∧
      (∃ r : ℚ,
        ((Double.fin 1 - Double.fin 0) / (Double.fin 4 - Double.fin 0) - 0.5) *
            3.141592653589793 = Double.fin r ∧
          -(Real.pi / 2) < (r : ℝ) ∧ (r : ℝ) < Real.pi / 2 ∧ Real.cos (r : ℝ) ≠ 0 ∧
          ∀ (tan : Double → Double) (tbuf : Nat → Double),
            Interval.x_to_t tan { a := Double.fin 0, b := Double.fin 4 } tbuf
              (fun _ => Double.fin 1) 0 = tan (Double.fin r)) ∧
      Interval.construct (0 : ℝ) 4 = Except.ok { a := 0, b := 4 } ∧
      Real.cos ((((1 : ℝ) - 0) / (4 - 0) - 0.5) * 3.141592653589793) ≠ 0 :=
  have hd : Interval.construct (Double.fin 0) (Double.fin 4) =
      Except.ok { a := Double.fin 0, b := Double.fin 4 } := by
    unfold Interval.construct
    rw [if_neg (by decide!)]
  have hi : Interval.construct (0 : ℝ) 4 = Except.ok { a := 0, b := 4 } := by
    norm_num [Interval.construct]
  ⟨hd, by norm_num, by norm_num, by norm_num, by decide!,
    Interval.x_to_t_well_defined.1 0 4 1 4 _ hd (by norm_num) (by norm_num) (by norm_num)
      (by decide!),
    hi,
    (Interval.x_to_t_well_defined.2 0 4 _ hi (fun _ => 1) (by norm_num) (by norm_num)
      (fun _ => 0)).2.2.2.1⟩

/-! ## `GreaterThanZero`: image and fibres of `t_to_x` -/

/-- C12, at dimension `1`: the inputs `[1]` and `[-1]` are distinct and
`t_to_x` sends both to the same output buffer (`1 * 1 = (-1) * (-1)`), in
exact real arithmetic and in binary64 alike; under the header comment's
`x_i = exp(t_i)` the two outputs would differ. -/
theorem GreaterThanZero.t_to_x_not_injective :
    (1 : Int) ≤ 1 ∧ (1 : ℝ) ≠ -1 ∧
      GreaterThanZero.t_to_x (GreaterThanZero.construct 1) (fun _ => (0 : ℝ))
          (fun _ => 1) =
        GreaterThanZero.t_to_x (GreaterThanZero.construct 1) (fun _ => (0 : ℝ))
          (fun _ => -1) ∧
      (1 : Double) ≠ -1 ∧
      GreaterThanZero.t_to_x (GreaterThanZero.construct 1) (fun _ => (0 : Double))
          (fun _ => 1) =
        GreaterThanZero.t_to_x (GreaterThanZero.construct 1) (fun _ => (0 : Double))
          (fun _ => -1) ∧
      Real.exp 1 ≠ Real.exp (-1) := by
  refine ⟨le_refl 1, by norm_num, ?_, by decide!, ?_, ?_⟩
  · funext j
    unfold GreaterThanZero.t_to_x
    rw [GreaterThanZero.square_loop_apply, GreaterThanZero.square_loop_apply]
    norm_num
  · funext j
    unfold GreaterThanZero.t_to_x
    rw [GreaterThanZero.square_loop_apply, GreaterThanZero.square_loop_apply]
    have h : (1 : Double) * 1 = -1 * -1 := by decide!
    rw [h]
  · intro h
    have := Real.exp_injective h
    norm_num at this

/-- C14, at dimension `1` and `t = [0]`: the header comment gives
`x_0 = exp(0) = 1`; `t_to_x` writes `0 * 0 = 0`, which is not greater than
zero.  At `t = [1]` it writes `1`, not `exp(1)`. -/
theorem GreaterThanZero.t_to_x_is_square_not_exp :
    GreaterThanZero.t_to_x (GreaterThanZero.construct 1) (fun _ => (5 : ℝ))
        (fun _ => 0) 0 = 0 ∧
      Real.exp 0 = 1 ∧
      ¬ (0 < GreaterThanZero.t_to_x (GreaterThanZero.construct 1) (fun _ => (5 : ℝ))
        (fun _ => 0) 0) ∧
      GreaterThanZero.t_to_x (GreaterThanZero.construct 1) (fun _ => (5 : ℝ))
        (fun _ => 1) 0 = 1 ∧
      GreaterThanZero.t_to_x (GreaterThanZero.construct 1) (fun _ => (5 : ℝ))
        (fun _ => 1) 0 ≠ Real.exp 1 := by
  have hb : (0 : Nat) < int_to_size_t (GreaterThanZero.construct 1).dimension :=
    lt_int_to_size_t 1 (by norm_num) 0 (by decide)
  have h0 : GreaterThanZero.t_to_x (GreaterThanZero.construct 1) (fun _ => (5 : ℝ))
      (fun _ => 0) 0 = 0 := by
    rw [GreaterThanZero.t_to_x_square _ _ _ 0 hb]; norm_num
  have h1 : GreaterThanZero.t_to_x (GreaterThanZero.construct 1) (fun _ => (5 : ℝ))
      (fun _ => 1) 0 = 1 := by
    rw [GreaterThanZero.t_to_x_square _ _ _ 0 hb]; norm_num
  refine ⟨h0, Real.exp_zero, ?_, h1, ?_⟩
  · rw [h0]; exact lt_irrefl 0
  · rw [h1]
    have h := Real.add_one_lt_exp (one_ne_zero : (1 : ℝ) ≠ 0)
    intro he
    rw [← he] at h
    norm_num at h

/-! ## Write set of `GreaterThanZero::t_to_x` -/

/-- The loop bound that `GreaterThanZero(-1)` compares its counter with. -/
theorem int_to_size_t_neg_one : int_to_size_t (-1) = 2 ^ 64 - 1 := by
  unfold int_to_size_t SIZE_T_RANGE
  norm_num
  rfl

/-- C15: `t_to_x` writes `x[j] = t[j] * t[j]` exactly at the indices below the
converted dimension.  For an `int` dimension `0 <= d` these are the indices of
`[0, d)`.  The constructor also accepts `d = -1`, and then the bound is
`2 ^ 64 - 1`: index `0` is written (with `t = [3]` the value `9` replaces the
`0` held before), although `[0, -1)` is empty; `Box::t_to_x`, whose counter
is an `int`, writes nothing for dimension `-1`. -/
theorem GreaterThanZero.t_to_x_write_set :
    (∀ (d : Int) (x t : Nat → ℚ) (j : Nat),
      GreaterThanZero.t_to_x (GreaterThanZero.construct d) x t j =
        if j < int_to_size_t d then t j * t j else x j) ∧
      (∀ (d : Int), 0 ≤ d → d < 2 ^ 31 → ∀ (x t : Nat → ℚ) (j : Nat),
        GreaterThanZero.t_to_x (GreaterThanZero.construct d) x t j =
          if (j : Int) < d then t j * t j else x j) ∧
      (GreaterThanZero.construct (-1)).dimension = -1 ∧
      int_to_size_t (GreaterThanZero.construct (-1)).dimension = 2 ^ 64 - 1 ∧
      GreaterThanZero.t_to_x (GreaterThanZero.construct (-1)) (fun _ => (0 : ℚ))
        (fun _ => 3) 0 = 9 ∧
      GreaterThanZero.t_to_x (GreaterThanZero.construct (-1)) (fun _ => (0 : ℚ))
        (fun _ => 3) 0 ≠ (fun _ => (0 : ℚ)) 0 ∧
      (∀ (atan : ℚ → ℚ) (a b x t : Nat → ℚ),
        Box.t_to_x atan { dimension := -1, a := a, b := b } x t = x) := by
  have hgen : ∀ (d : Int) (x t : Nat → ℚ) (j : Nat),
      GreaterThanZero.t_to_x (GreaterThanZero.construct d) x t j =
        if j < int_to_size_t d then t j * t j else x j := by
    intro d x t j
    unfold GreaterThanZero.t_to_x
    rw [GreaterThanZero.square_loop_apply]
    rfl
  have h9 : GreaterThanZero.t_to_x (GreaterThanZero.construct (-1)) (fun _ => (0 : ℚ))
      (fun _ => 3) 0 = 9 := by
    rw [hgen, int_to_size_t_neg_one]
    norm_num
  refine ⟨hgen, ?_, rfl, int_to_size_t_neg_one, h9, ?_, ?_⟩
  · intro d h0 hd x t j
    rw [hgen, int_to_size_t_of_nonneg d h0 hd]
    have hiff : j < d.toNat ↔ (j : Int) < d := by omega
    simp only [hiff]
  · rw [h9]; norm_num
  · intro atan a b x t
    rfl

/-! ## The two literals for `pi` -/

/-- C17: with the identity in place of `atan` and of `tan`, `Interval(0, 1)`
exposes the two factors of the code: `t_to_x` multiplies by
`0.318309886183791`, `x_to_t` by `3.141592653589793`.  Their product is
`1.000000000000000955989519645263`, not `1`, and going forth and back
multiplies `t` by it; `Box` uses the same two literals. -/
theorem literals_not_reciprocal :
    Interval.t_to_x id { a := (0 : ℚ), b := 1 } (fun _ => 0) (fun _ => 1) 0 - 0.5 =
        0.318309886183791 ∧
      Interval.x_to_t id { a := (0 : ℚ), b := 1 } (fun _ => 0) (fun _ => 1.5) 0 =
        3.141592653589793 ∧
      (0.318309886183791 : ℚ) * 3.141592653589793 =
        1.000000000000000955989519645263 ∧
      (0.318309886183791 : ℚ) * 3.141592653589793 ≠ 1 ∧
      Interval.x_to_t id { a := (0 : ℚ), b := 1 } (fun _ => 0)
          (Interval.t_to_x id { a := (0 : ℚ), b := 1 } (fun _ => 0) (fun _ => 1)) 0 =
        1.000000000000000955989519645263 ∧
      Box.x_to_t id { dimension := 1, a := fun _ => (0 : ℚ), b := fun _ => 1 } (fun _ => 0)
          (Box.t_to_x id { dimension := 1, a := fun _ => (0 : ℚ), b := fun _ => 1 }
            (fun _ => 0) (fun _ => 1)) 0 =
        1.000000000000000955989519645263 := by
  refine ⟨?_, ?_, by norm_num, by norm_num, ?_, ?_⟩
  · rw [Interval.t_to_x_zero]; norm_num
  · rw [Interval.x_to_t_zero]; norm_num
  · rw [Interval.x_to_t_zero, Interval.t_to_x_zero]; norm_num
  · rw [Box.x_to_t_coordinate id _ _ _ 0 (by decide),
      Box.t_to_x_coordinate id _ _ _ 0 (by decide)]
    norm_num

end spii
